import Mathlib

/-!
Verification of the RoboSystems MCP client (`src/unnamed/part_003`, "index.js").

The development shallowly embeds the response-handling and session core of the
client:

* `SSEConnectionPool` (source lines 37-108) as a pure state machine over an
  explicit millisecond clock (`Date.now()` becomes a `Nat` argument at each
  operation; timer-driven TTL expiry fires as an explicit `closeConnection`).
* `ResultCache.generateKey` / `_sortObjectKeys` (lines 120-142) over a JSON
  value type `J`.  The source serializes the canonical payload with
  `JSON.stringify` and hashes it with SHA-256; both maps are injective on the
  payloads involved (`JSON.stringify` by construction on structured values,
  SHA-256 by the collision-freeness it is used for), so the model keeps the
  canonical payload itself as the key and key (in)equality is decided on it.
* `executeWithRetry` (lines 423-452) with the fallible operation modelled as a
  function from the attempt index to `Except` (backoff delays are pure
  suspensions and do not influence results, so they are not modelled).
* `aggregateStreamedResults` (lines 640-713) over typed stream events.
* The workspace/session handlers `_handleCreateWorkspace`,
  `_handleSwitchWorkspace`, `_handleDeleteWorkspace`, `_handleListWorkspaces`
  and the `callTool` intercept (lines 334-349, 749-1135).  The remote HTTP
  round-trip of create/delete/list is modelled by a `RemoteResult` input: the
  envelope-decoding steps (fetch, `response.ok` check, `data.result.text`
  JSON parsing with its fallbacks, lines 759-794 etc.) always produce either a
  thrown error (caught by the handler's `catch`) or some JSON `result` value,
  which is exactly what `RemoteResult` carries.
-/

/-- JSON-like values as manipulated by the client.  JavaScript objects are
field lists in insertion order (keys unique in every value produced by
`JSON.parse`); numbers are modelled as integers (no claim involves non-integer
arithmetic). -/
inductive J : Type where
  | null : J
  | bool (b : Bool) : J
  | num (n : Int) : J
  | str (s : String) : J
  | arr (xs : List J) : J
  | obj (fs : List (String × J)) : J

mutual

/-- Structural decidable equality on `J` (JavaScript `===` on the primitive
values the claims exercise; see the state model below for the
object-reference caveat, which no claim observes). -/
def jDecEq : (a b : J) → Decidable (a = b)
  | .null, .null => isTrue rfl
  | .bool a, .bool b =>
      if h : a = b then isTrue (by rw [h]) else isFalse (fun hh => by cases hh; exact h rfl)
  | .num a, .num b =>
      if h : a = b then isTrue (by rw [h]) else isFalse (fun hh => by cases hh; exact h rfl)
  | .str a, .str b =>
      if h : a = b then isTrue (by rw [h]) else isFalse (fun hh => by cases hh; exact h rfl)
  | .arr a, .arr b =>
      match jDecEqList a b with
      | isTrue h => isTrue (by rw [h])
      | isFalse h => isFalse (fun hh => by cases hh; exact h rfl)
  | .obj a, .obj b =>
      match jDecEqFields a b with
      | isTrue h => isTrue (by rw [h])
      | isFalse h => isFalse (fun hh => by cases hh; exact h rfl)
  | .null, .bool _ => isFalse nofun
  | .null, .num _ => isFalse nofun
  | .null, .str _ => isFalse nofun
  | .null, .arr _ => isFalse nofun
  | .null, .obj _ => isFalse nofun
  | .bool _, .null => isFalse nofun
  | .bool _, .num _ => isFalse nofun
  | .bool _, .str _ => isFalse nofun
  | .bool _, .arr _ => isFalse nofun
  | .bool _, .obj _ => isFalse nofun
  | .num _, .null => isFalse nofun
  | .num _, .bool _ => isFalse nofun
  | .num _, .str _ => isFalse nofun
  | .num _, .arr _ => isFalse nofun
  | .num _, .obj _ => isFalse nofun
  | .str _, .null => isFalse nofun
  | .str _, .bool _ => isFalse nofun
  | .str _, .num _ => isFalse nofun
  | .str _, .arr _ => isFalse nofun
  | .str _, .obj _ => isFalse nofun
  | .arr _, .null => isFalse nofun
  | .arr _, .bool _ => isFalse nofun
  | .arr _, .num _ => isFalse nofun
  | .arr _, .str _ => isFalse nofun
  | .arr _, .obj _ => isFalse nofun
  | .obj _, .null => isFalse nofun
  | .obj _, .bool _ => isFalse nofun
  | .obj _, .num _ => isFalse nofun
  | .obj _, .str _ => isFalse nofun
  | .obj _, .arr _ => isFalse nofun

def jDecEqList : (a b : List J) → Decidable (a = b)
  | [], [] => isTrue rfl
  | [], _ :: _ => isFalse nofun
  | _ :: _, [] => isFalse nofun
  | a :: as, b :: bs =>
      match jDecEq a b, jDecEqList as bs with
      | isTrue h1, isTrue h2 => isTrue (by rw [h1, h2])
      | isFalse h1, _ => isFalse (fun hh => by cases hh; exact h1 rfl)
      | _, isFalse h2 => isFalse (fun hh => by cases hh; exact h2 rfl)

def jDecEqFields : (a b : List (String × J)) → Decidable (a = b)
  | [], [] => isTrue rfl
  | [], _ :: _ => isFalse nofun
  | _ :: _, [] => isFalse nofun
  | (k1, v1) :: as, (k2, v2) :: bs =>
      match String.decEq k1 k2, jDecEq v1 v2, jDecEqFields as bs with
      | isTrue h0, isTrue h1, isTrue h2 => isTrue (by rw [h0, h1, h2])
      | isFalse h0, _, _ => isFalse (fun hh => by cases hh; exact h0 rfl)
      | _, isFalse h1, _ => isFalse (fun hh => by cases hh; exact h1 rfl)
      | _, _, isFalse h2 => isFalse (fun hh => by cases hh; exact h2 rfl)

end

instance : DecidableEq J := jDecEq


/-- JavaScript truthiness of a value (`if (x)`, `x || y`).  The model has no
`NaN` and no `undefined` value; `undefined` is represented by an absent
`Option` where it can occur. -/
def jsTruthy : J → Bool
  | .null => false
  | .bool b => b
  | .num n => n != 0
  | .str s => s != ""
  | .arr _ => true
  | .obj _ => true

mutual

/-- JavaScript string coercion as performed by template literals
(`` `...${x}...` ``): strings pass through, numbers and booleans print, `null`
prints as "null", arrays join their elements with "," (null and undefined
elements joining as empty), plain objects print as "[object Object]". -/
def jsToString : J → String
  | .null => "null"
  | .bool b => if b then "true" else "false"
  | .num n => toString n
  | .str s => s
  | .arr xs => jsToStringArr xs
  | .obj _ => "[object Object]"

def jsToStringArr : List J → String
  | [] => ""
  | [.null] => ""
  | [x] => jsToString x
  | .null :: y :: rest => "," ++ jsToStringArr (y :: rest)
  | x :: y :: rest => jsToString x ++ "," ++ jsToStringArr (y :: rest)

end

/-- Property access `v.k` on a receiver that is not `null`: `none` is
JavaScript `undefined` (absent field, or a primitive receiver without own
properties the client reads).  JavaScript throws `TypeError` when the
receiver is `null`; the claim-reachable accesses either sit behind a
truthiness guard, or are the `ws.workspace_id` of the listing rebuild
(part_003:1068) and the `result.error` checks of the three round-trip
handlers, whose `null`-receiver throws are modelled explicitly at those
sites (`rebuildLoop` stops at a `null` element; the handlers branch on a
`null` result).  Values produced by `JSON.parse` have unique keys, so
first-match lookup agrees with JavaScript. -/
def jsGetField (v : J) (k : String) : Option J :=
  match v with
  | .obj fs => (fs.find? (fun p => p.1 == k)).map (·.2)
  | _ => none

/-- The value of `v.k` when it is truthy, `none` otherwise (the pattern
`v.k && ...` / `v.k || ...`). -/
def truthyField (v : J) (k : String) : Option J :=
  (jsGetField v k).filter jsTruthy

/-- `s` starts with `pat` (character lists). -/
def listStarts : List Char → List Char → Bool
  | _, [] => true
  | [], _ :: _ => false
  | a :: as, b :: bs => (a == b) && listStarts as bs

/-- `pat` occurs somewhere in `s` (character lists). -/
def listHas (s pat : List Char) : Bool :=
  listStarts s pat ||
    match s with
    | [] => false
    | _ :: rest => listHas rest pat

/-- JavaScript `String.prototype.includes`. -/
def strIncludes (s pat : String) : Bool :=
  listHas s.data pat.data

/-- A text result `{ type: 'text', text: string }` as returned across the
facade.  `plain s` is a result whose text is the string `s` itself;
`pretty v` is a result whose text is `JSON.stringify(v, null, 2)` (the
serialization is kept symbolic: every claim is about the serialized payload's
content, and pretty-printing is injective on `J`). -/
inductive TText : Type where
  | plain (s : String) : TText
  | pretty (v : J) : TText
  deriving DecidableEq

/-! ## SSE connection pool (source lines 37-108)

The `eventSource` transport handle is opaque and identified here by the id it
was created under; `cleanupTimer` fires as an explicit `closeConnection` call
in a trace, so the pool state needs only the timestamps. -/

/-- One pooled connection's bookkeeping (source lines 65-70). -/
structure PoolConn : Type where
  createdAt : Nat
  lastUsed : Nat
  deriving DecidableEq

/-- The pool: entries in insertion order (a JS `Map` iterates in insertion
order), plus the capacity.  `connectionTTL` only schedules the timer whose
firing a trace represents by `closeConnection`. -/
structure SSEPool : Type where
  connections : List (String × PoolConn)
  maxConnections : Nat
  deriving DecidableEq

/-- `new SSEConnectionPool(maxConnections)`; the constructor's default
capacity (used by the client, line 192) is 5. -/
def SSEPool.make (maxConnections : Nat) : SSEPool :=
  { connections := [], maxConnections := maxConnections }

def SSEPool.size (p : SSEPool) : Nat := p.connections.length

def SSEPool.hasConn (p : SSEPool) (id : String) : Bool :=
  p.connections.any (fun e => e.1 == id)

/-- The body of `evictOldest` (lines 75-89): scan in insertion order keeping
the entry whose `lastUsed` is strictly below the running minimum, which
starts at `Date.now()` (= `now`). -/
def SSEPool.findOldest (p : SSEPool) (now : Nat) : Option String :=
  (p.connections.foldl
    (fun acc e => if e.2.lastUsed < acc.2 then (some e.1, e.2.lastUsed) else acc)
    ((none : Option String), now)).1

/-- `closeConnection(operationId)` (lines 91-101): clears the timer, closes the
transport and removes the entry; a no-op when absent. -/
def SSEPool.closeConnection (p : SSEPool) (id : String) : SSEPool :=
  { p with connections := p.connections.filter (fun e => e.1 != id) }

/-- `evictOldest()` (lines 75-89). -/
def SSEPool.evictOldest (p : SSEPool) (now : Nat) : SSEPool :=
  match p.findOldest now with
  | some id => p.closeConnection id
  | none => p

/-- `getConnection(operationId, url, headers)` (lines 44-73), with `Date.now()`
supplied as `now`.  On reuse only `lastUsed` is refreshed; otherwise the pool
is evicted when at capacity and a fresh entry is appended. -/
def SSEPool.getConnection (p : SSEPool) (id : String) (now : Nat) : SSEPool :=
  if p.hasConn id then
    { p with
        connections :=
          p.connections.map
            (fun e => if e.1 == id then (e.1, { e.2 with lastUsed := now }) else e) }
  else
    let p1 := if p.size ≥ p.maxConnections then p.evictOldest now else p
    { p1 with connections := p1.connections ++ [(id, { createdAt := now, lastUsed := now })] }

/-- `closeAll()` (lines 103-107). -/
def SSEPool.closeAll (p : SSEPool) : SSEPool :=
  { p with connections := [] }

/-- A pool operation in a trace.  TTL timer firings appear as `close` (the
timer body is exactly `closeConnection`, line 61-63). -/
inductive PoolOp : Type where
  | get (id : String) (now : Nat) : PoolOp
  | close (id : String) : PoolOp
  | closeAll : PoolOp
  deriving DecidableEq

def SSEPool.step (p : SSEPool) : PoolOp → SSEPool
  | .get id now => p.getConnection id now
  | .close id => p.closeConnection id
  | .closeAll => p.closeAll

def SSEPool.run (p : SSEPool) (ops : List PoolOp) : SSEPool :=
  ops.foldl SSEPool.step p

/-! ## Retry executor (source lines 423-452) -/

/-- `error.message.includes('401') || ... ('403') || ... ('400')`
(lines 433-437): failures classified as non-retryable. -/
def isNonRetryable (msg : String) : Bool :=
  strIncludes msg "401" || strIncludes msg "403" || strIncludes msg "400"

/-- The text built at line 450: `` `Error after ${maxRetries} attempts:
${lastError?.message || 'Unknown error'}` ``.  A falsy (empty) message also
falls back to `'Unknown error'`. -/
def errAfterText (maxRetries : Nat) (lastMsg : Option String) : String :=
  "Error after " ++ toString maxRetries ++ " attempts: " ++
    (match lastMsg with
     | some m => if m = "" then "Unknown error" else m
     | none => "Unknown error")

/-- What `executeWithRetry` hands back: the operation's own value on success,
or the `{type:'text', text: 'Error after ...'}` object after the loop. -/
inductive RetryOutcome (α : Type) : Type where
  | result (v : α) : RetryOutcome α
  | errorText (s : String) : RetryOutcome α
  deriving DecidableEq

/-- The retry loop (lines 426-446), with the fallible operation given as its
outcome per attempt index and the loop counter split into the structurally
decreasing `remaining` (`= maxRetries - attempt`) and the running `attempt`.
Returns the number of invocations made together with the outcome; the
`setTimeout` backoff (lines 442-443) suspends without affecting either. -/
def retryGo (op : Nat → Except String α) (maxRetries : Nat) :
    (remaining attempt : Nat) → Option String → Nat × RetryOutcome α
  | 0, _, lastErr => (0, .errorText (errAfterText maxRetries lastErr))
  | remaining + 1, attempt, _ =>
      match op attempt with
      | .ok v => (1, .result v)
      | .error e =>
          if isNonRetryable e then
            (1, .errorText (errAfterText maxRetries (some e)))
          else
            let r := retryGo op maxRetries remaining (attempt + 1) (some e)
            (r.1 + 1, r.2)

/-- `executeWithRetry(fn)` with the client's `maxRetries = 3`
(constructor line 194). -/
def executeWithRetry (op : Nat → Except String α) : Nat × RetryOutcome α :=
  retryGo op 3 3 0 none

/-! ## Result cache key derivation (source lines 114-142)

`generateKey` builds `{ tool, args: sortedArgs, workspace: workspaceId }`,
serializes it with `JSON.stringify` and hashes the string with SHA-256
(lines 120-126).  Serialization and hashing are injective on these payloads
(`JSON.stringify` by construction, SHA-256 by the collision-freeness it is
deployed for), so the model's key is the canonical payload itself and key
(in)equality in the claims is decided on it. -/

/-- Lexicographic comparison of key strings as character lists.  JavaScript's
default `Array.prototype.sort` comparator orders keys lexicographically by
UTF-16 code units; any fixed total order canonicalizes identically, and on
the Basic Multilingual Plane this order coincides with it. -/
def charsLe : List Char → List Char → Bool
  | [], _ => true
  | _ :: _, [] => false
  | a :: as, b :: bs => if a < b then true else if b < a then false else charsLe as bs

def strLe (s t : String) : Bool :=
  charsLe s.data t.data

/-- Key order on object fields, used for `Object.keys(obj).sort()`. -/
def fieldLe (p q : String × J) : Prop :=
  strLe p.1 q.1 = true

instance : DecidableRel fieldLe :=
  fun _ _ => instDecidableEqBool _ _

/-- Strict version of the key order: used only in proofs, to identify the two
sorted permutations of a duplicate-free field list. -/
def fieldLt (p q : String × J) : Prop :=
  fieldLe p q ∧ p.1 ≠ q.1

mutual

/-- `_sortObjectKeys` (lines 128-142): atoms pass through, arrays map
recursively in order, objects are rebuilt with their fields in sorted key
order and recursively sorted values.  (The source sorts the keys and then
recurses on each value while rebuilding; sorting pairs by key and recursing
on values commutes, since recursion never touches keys.) -/
def sortObjectKeys : J → J
  | .null => .null
  | .bool b => .bool b
  | .num n => .num n
  | .str s => .str s
  | .arr xs => .arr (sortKeysList xs)
  | .obj fs => .obj (List.insertionSort fieldLe (sortKeysFields fs))

def sortKeysList : List J → List J
  | [] => []
  | x :: xs => sortObjectKeys x :: sortKeysList xs

def sortKeysFields : List (String × J) → List (String × J)
  | [] => []
  | (k, v) :: fs => (k, sortObjectKeys v) :: sortKeysFields fs

end

/-- The canonical payload `{ tool, args: sortedArgs, workspace: workspaceId }`
built at line 124; see the section comment for why the model stops before
stringify+SHA-256. -/
structure CacheKeyPayload : Type where
  tool : String
  args : J
  workspace : Option String
  deriving DecidableEq

/-- `ResultCache.generateKey(tool, args, workspaceId = null)`
(lines 120-126). -/
def generateKey (tool : String) (args : J) (workspaceId : Option String) :
    CacheKeyPayload :=
  { tool := tool, args := sortObjectKeys args, workspace := workspaceId }

/-- Structural equality of JSON values up to key insertion order inside
(possibly nested) mappings: atoms must coincide, arrays are compared
pointwise in order, and an object's fields may be permuted after their
values are related pointwise (JavaScript object keys are unique, which the
`obj` case records for the left-hand list). -/
inductive JEquiv : J → J → Prop where
  | nullE : JEquiv .null .null
  | boolE (b : Bool) : JEquiv (.bool b) (.bool b)
  | numE (n : Int) : JEquiv (.num n) (.num n)
  | strE (s : String) : JEquiv (.str s) (.str s)
  | arrE (xs ys : List J) (hlen : xs.length = ys.length)
      (h : ∀ p ∈ xs.zip ys, JEquiv p.1 p.2) : JEquiv (.arr xs) (.arr ys)
  | objE (fs mid gs : List (String × J)) (hlen : fs.length = mid.length)
      (hkeys : ∀ pq ∈ fs.zip mid, pq.1.1 = pq.2.1)
      (hvals : ∀ pq ∈ fs.zip mid, JEquiv pq.1.2 pq.2.2)
      (hperm : mid.Perm gs) (hnd : (fs.map Prod.fst).Nodup) :
      JEquiv (.obj fs) (.obj gs)

/-! ## Streamed-result aggregation (source lines 640-713)

Events are modelled in the shape the SSE handler pushes them
(lines 466-520): a kind name and a JSON payload. -/

/-- One collected stream event `{ event, data }`. -/
structure SEvent : Type where
  event : String
  data : J
  deriving DecidableEq

/-- `errorEvent.data.error || errorEvent.data.message || 'Tool execution
failed'` followed by the template-literal coercion (line 646). -/
def errMsgOf (d : J) : String :=
  match truthyField d "error" with
  | some v => jsToString v
  | none =>
      match truthyField d "message" with
      | some v => jsToString v
      | none => "Tool execution failed"

def isErrorEvent (e : SEvent) : Bool :=
  e.event == "error" || e.event == "operation_error"

/-- `typeof result === 'string' ? result : JSON.stringify(result, null, 2)`
(lines 657, 707). -/
def strOrPretty : J → TText
  | .str s => .plain s
  | v => .pretty v

/-- Strategy 2 (lines 651-660): a `query_result` event with truthy `data` and
truthy `data.result`; `none` when the strategy does not fire. -/
def queryResultStrat (events : List SEvent) : Option TText :=
  match events.find? (fun e => e.event == "query_result") with
  | some qr =>
      if jsTruthy qr.data then
        match truthyField qr.data "result" with
        | some r => some (strOrPretty r)
        | none => none
      else none
  | none => none

def isChunkEvent (e : SEvent) : Bool :=
  e.event == "query_chunk" || e.event == "data_chunk"

/-- The `columns` variable after the chunk loop (lines 666-671): the first
chunk whose `data.columns` is truthy establishes the column list. -/
def chunkColumns (chunks : List SEvent) : Option J :=
  chunks.findSome? (fun c => truthyField c.data "columns")

/-- The rows a single chunk contributes: `allRows.push(...chunk.data.data)`
behind `if (chunk.data.data)` (lines 672-674).  Spreading iterates arrays
elementwise and strings characterwise; a truthy non-iterable would throw a
`TypeError` in the source (no claim reaches that case, and the chunk
well-formedness hypotheses below exclude it). -/
def chunkRows (c : SEvent) : List J :=
  match truthyField c.data "data" with
  | some (.arr xs) => xs
  | some (.str s) => s.data.map (fun ch => J.str (String.mk [ch]))
  | some _ => []
  | none => []

/-- `allRows` after the chunk loop, in arrival order. -/
def allChunkRows (chunks : List SEvent) : List J :=
  chunks.foldl (fun acc c => acc ++ chunkRows c) []

/-- Strategy 3 (lines 662-692): merge the chunk events; emit only if a row or
a column list was present. -/
def chunkStrat (events : List SEvent) : Option TText :=
  let queryChunks := events.filter isChunkEvent
  if queryChunks.isEmpty then none
  else
    let columns := chunkColumns queryChunks
    let allRows := allChunkRows queryChunks
    if allRows.length > 0 || columns.isSome then
      some (.pretty (J.obj
        [("columns", columns.getD (J.arr [])),
         ("data", J.arr allRows),
         ("row_count", J.num allRows.length)]))
    else none

/-- Strategy 4 (lines 694-709): the first completion-kind event; its `result`
field when truthy, else its whole payload. -/
def completionStrat (events : List SEvent) : Option TText :=
  (events.find? (fun e =>
      e.event == "operation_completed" || e.event == "complete" ||
      e.event == "query_complete" || e.event == "result" ||
      e.event == "query_result")).map
    (fun re => strOrPretty ((truthyField re.data "result").getD re.data))

/-- The collected event list as the JSON value the fallback stringifies
(line 712). -/
def eventsAsJson (events : List SEvent) : J :=
  J.arr (events.map (fun e => J.obj [("event", J.str e.event), ("data", e.data)]))

/-- Strategies 4 and 5: what aggregation returns once the chunk strategy has
fallen through. -/
def aggTail (events : List SEvent) : TText :=
  match completionStrat events with
  | some t => t
  | none => .pretty (eventsAsJson events)

/-- `aggregateStreamedResults(events)` (lines 640-713): strategies tried in
strict order, first match wins. -/
def aggregateStreamedResults (events : List SEvent) : TText :=
  match events.find? isErrorEvent with
  | some errorEvent => .plain ("Error: " ++ errMsgOf errorEvent.data)
  | none =>
      match queryResultStrat events with
      | some t => t
      | none =>
          match chunkStrat events with
          | some t => t
          | none => aggTail events

/-! ## Workspace/session state (source lines 177-213, 334-362, 749-1135)

Workspace map keys are `Option J`: `none` is the JavaScript `undefined` key
(e.g. `result.workspace_id` absent), `some (J.str s)` an id string.  `Map`
keys and `===` compare objects by reference in JavaScript while the model
compares structurally; every id a claim touches is a string (or `undefined`),
where the two notions coincide.

Workspace metadata records the stored fields as raw values (`none` =
property absent/undefined) plus the stored `created_at` timestamp, which the
fallback listing reads back through `new Date(·).toISOString()` — an
operation that throws `RangeError` on NaN, so timestamps are modelled as
valid-or-NaN (`JsTime`).  The `metrics` counters are unread by every claim
and not modelled. -/

/-- A stored JavaScript timestamp: a finite millisecond number, or NaN (the
`getTime()` of an Invalid Date). -/
inductive JsTime : Type where
  | valid (ms : Int) : JsTime
  | nan : JsTime
  deriving DecidableEq

/-- Exactly the ISO calendar-date shape `YYYY-MM-DD` (the format whose
parsing ECMA-262 pins down; see `jsDateParse`). -/
def isoDateShape : List Char → Bool
  | [y1, y2, y3, y4, '-', m1, m2, '-', d1, d2] =>
      y1.isDigit && y2.isDigit && y3.isDigit && y4.isDigit &&
        m1.isDigit && m2.isDigit && d1.isDigit && d2.isDigit
  | _ => false

/-- `new Date(x).getTime()` for a truthy `x` (part_003:1073).  Finite numbers
and booleans give valid times; strings go through the implementation's date
parser, which ECMA-262 fixes only for ISO 8601 formats — the model accepts
exactly the ISO calendar-date shape and maps every other string to NaN —
and non-string objects are coerced through their string form first, as
`new Date` does.  No theorem depends on which strings parse: date validity
enters statements only as a hypothesis on stored timestamps, and the
concrete inputs of witnesses and counterexamples use values on which this
model and every conforming parser agree (finite numbers; the non-date
string "not-a-date").  The millisecond value of a parsed date string is
never observed by any claim, so the model takes it as 0. -/
def jsDateParse : J → JsTime
  | .num n => .valid n
  | .bool b => .valid (if b then 1 else 0)
  | .str s => if isoDateShape s.data then .valid 0 else .nan
  | .null => .valid 0
  | .arr xs => if isoDateShape (jsToString (J.arr xs)).data then .valid 0 else .nan
  | .obj _ => .nan

/-- `new Date(t).toISOString()` (part_003:1116): throws
`RangeError: Invalid time value` on NaN, else yields the ISO rendering of
the millisecond value.  Only success-versus-throw is observed by any claim,
so the rendering abbreviates the calendar formatting to the decimal
millisecond count. -/
def jsTimeToISO : JsTime → Except String String
  | .valid ms => .ok (toString ms)
  | .nan => .error "Invalid time value"

/-- Metadata stored per workspace (the object literals at lines 199-204,
809-816, 1068-1074). -/
structure WMeta : Type where
  wtype : Option J
  name : Option J
  description : Option J
  parent_graph_id : Option J
  forked_from_parent : Option J
  created_at : JsTime
  deriving DecidableEq

/-- `Date.now()` always returns a finite (valid) timestamp; its numeric
value is never observed by a claim (only validity is, through
`jsTimeToISO`), so the model takes the process epoch as time zero wherever
the source stores `Date.now()`. -/
def WMeta.empty : WMeta :=
  { wtype := none, name := none, description := none, parent_graph_id := none,
    forked_from_parent := none, created_at := .valid 0 }

instance : Inhabited WMeta := ⟨WMeta.empty⟩

/-- The client's session state: the fixed primary graph id, the active
context pointer, and the workspace map in insertion order. -/
structure ClientState : Type where
  primaryGraphId : String
  activeGraphId : Option J
  workspaces : List (Option J × WMeta)
  deriving DecidableEq

/-- Workspace-map membership (`Map.has`). -/
def wHas (m : List (Option J × WMeta)) (k : Option J) : Bool :=
  m.any (fun e => e.1 == k)

/-- `Map.set`: replace in place when the key exists (a JS `Map` keeps the
original position), else append. -/
def wSet (m : List (Option J × WMeta)) (k : Option J) (v : WMeta) :
    List (Option J × WMeta) :=
  if wHas m k then m.map (fun e => if e.1 == k then (k, v) else e)
  else m ++ [(k, v)]

/-- `Map.delete` (a no-op when absent). -/
def wDel (m : List (Option J × WMeta)) (k : Option J) : List (Option J × WMeta) :=
  m.filter (fun e => e.1 != k)

/-- `Map.get`. -/
def wGet (m : List (Option J × WMeta)) (k : Option J) : Option WMeta :=
  (m.find? (fun e => e.1 == k)).map (·.2)

def wKeys (m : List (Option J × WMeta)) : List (Option J) :=
  m.map (·.1)

/-- The constructor's workspace seeding (lines 181-204): the primary graph id
is both the primary and the active context, and the map holds exactly its
`{type:'primary', name:'main', parent_graph_id:null}` entry. -/
def initClient (g : String) : ClientState :=
  { primaryGraphId := g
    activeGraphId := some (J.str g)
    workspaces := [(some (J.str g),
      { wtype := some (J.str "primary"), name := some (J.str "main"),
        description := none, parent_graph_id := some J.null,
        forked_from_parent := none, created_at := .valid 0 })] }

/-- Outcome of one remote round-trip of the create/delete/list handlers.
`fail msg` is a thrown fetch error or a non-ok HTTP status (both land in the
handler's `catch` with `msg = error.message`); `ok result` carries the
`result` value the handler decodes from a 2xx envelope (the
`data.result.text` JSON-parse with its fallbacks, lines 782-794, 945-957,
1042-1052, always yields some value). -/
inductive RemoteResult : Type where
  | fail (msg : String) : RemoteResult
  | ok (result : J) : RemoteResult
  deriving DecidableEq

/-- Builds the JSON object `JSON.stringify` would produce from an object
literal whose field values may be `undefined` (stringify drops such
fields). -/
def mkObjD (fields : List (String × Option J)) : J :=
  J.obj (fields.filterMap (fun p => p.2.map (fun v => (p.1, v))))

/-- `undefined` array elements stringify as `null`
(`Array.from(map.keys())` inside a serialized payload). -/
def keyToJ (k : Option J) : J :=
  k.getD J.null

/-- Template-literal coercion of a possibly-undefined value. -/
def keyShow (k : Option J) : String :=
  match k with
  | some v => jsToString v
  | none => "undefined"

/-- `_handleSwitchWorkspace(args)` (lines 858-919).  The handler performs no
remote round-trip in any branch (its model takes no `RemoteResult`): the
`"primary"` alias is resolved, an unknown id yields the error payload with
the known ids, the active id yields the no-op payload, and otherwise only
the active pointer moves. -/
def handleSwitchWorkspace (st : ClientState) (args : J) : TText × ClientState :=
  let wsArg := jsGetField args "workspace_id"
  let target := if wsArg == some (J.str "primary") then some (J.str st.primaryGraphId)
    else wsArg
  if ¬ wHas st.workspaces target then
    (.pretty (mkObjD
      [("error", some (J.str "Unknown workspace")),
       ("workspace_id", target),
       ("message", some (J.str ("Workspace \"" ++ keyShow target ++
          "\" not found. Use list-workspaces to see available workspaces."))),
       ("available_workspaces", some (J.arr ((wKeys st.workspaces).map keyToJ)))]),
     st)
  else if st.activeGraphId == target then
    (.pretty (mkObjD
      [("success", some (J.bool true)),
       ("workspace_id", target),
       ("message", some (J.str ("Already in workspace \"" ++ keyShow target ++ "\"")))]),
     st)
  else
    let workspace := (wGet st.workspaces target).getD WMeta.empty
    let previous := st.activeGraphId
    (.pretty (mkObjD
      [("success", some (J.bool true)),
       ("switched_from", previous),
       ("switched_to", target),
       ("workspace_type", workspace.wtype),
       ("message", some (J.str ("Switched to " ++
          (if workspace.wtype == some (J.str "primary") then "primary graph"
           else "workspace \"" ++ keyShow workspace.name ++ "\"") ++
          ". All operations now use this environment.")))]),
     { st with activeGraphId := target })

/-- `_handleDeleteWorkspace(args)` (lines 921-1016): delegated to the remote;
on a successful, error-free response the id is removed locally (with no
client-side guard for the primary id) and the active pointer falls back to
the primary when the deleted id was active.  A decoded `result` of JSON
`null` makes `result.error` (line 960) throw `TypeError` inside the `try`,
so the `catch` answers with the failure payload and nothing is mutated (the
thrown message is V8's wording, observed by no claim). -/
def handleDeleteWorkspace (st : ClientState) (args : J) (remote : RemoteResult) :
    TText × ClientState :=
  let wsArg := jsGetField args "workspace_id"
  match remote with
  | .fail msg =>
      (.pretty (mkObjD
        [("error", some (J.str "Failed to delete workspace")),
         ("message", some (J.str msg)),
         ("workspace_id", wsArg)]), st)
  | .ok result =>
      if result == J.null then
        (.pretty (mkObjD
          [("error", some (J.str "Failed to delete workspace")),
           ("message", some (J.str "Cannot read properties of null (reading 'error')")),
           ("workspace_id", wsArg)]), st)
      else if (truthyField result "error").isSome then (.pretty result, st)
      else
        let switchedBack := st.activeGraphId == wsArg
        let active' := if switchedBack then some (J.str st.primaryGraphId)
          else st.activeGraphId
        let st' := { st with workspaces := wDel st.workspaces wsArg,
                             activeGraphId := active' }
        (.pretty (mkObjD
          [("success", some (J.bool true)),
           ("deleted", wsArg),
           ("active_workspace", active'),
           ("switched_back_to_primary", some (J.bool switchedBack)),
           ("message", some (match truthyField result "message" with
              | some m => m
              | none => J.str ("Deleted workspace \"" ++ keyShow wsArg ++ "\"" ++
                  (if switchedBack then " and switched back to primary graph" else "") ++
                  ".")))]), st')

/-- `_handleCreateWorkspace(args)` (lines 749-856).  The `subgraph_type`
validation (lines 751-757) sits before the `try` block: an invalid kind
throws out of the handler (`Except.error`), mutating nothing.  Otherwise the
handler never throws; on an error-free remote response the returned id is
recorded and becomes the active context.  As in the delete handler, a
decoded `result` of JSON `null` makes `result.error` (line 797) throw
inside the `try` and the `catch` answers with the failure payload. -/
def handleCreateWorkspace (st : ClientState) (args : J) (remote : RemoteResult) :
    Except String (TText × ClientState) :=
  let nameArg := jsGetField args "name"
  let descArg := jsGetField args "description"
  let forkParent := (jsGetField args "fork_parent").getD (J.bool false)
  let subgraphType := (jsGetField args "subgraph_type").getD (J.str "static")
  if ¬ (subgraphType == J.str "static" || subgraphType == J.str "memory") then
    .error ("Invalid subgraph_type \"" ++ jsToString subgraphType ++
      "\". Must be one of: static, memory")
  else
    .ok (match remote with
    | .fail msg =>
        (.pretty (mkObjD
          [("error", some (J.str "Failed to create workspace")),
           ("message", some (J.str msg)),
           ("workspace_name", nameArg)]), st)
    | .ok result =>
        if result == J.null then
          (.pretty (mkObjD
            [("error", some (J.str "Failed to create workspace")),
             ("message", some (J.str "Cannot read properties of null (reading 'error')")),
             ("workspace_name", nameArg)]), st)
        else if (truthyField result "error").isSome then (.pretty result, st)
        else
          let workspaceId := jsGetField result "workspace_id"
          let meta : WMeta :=
            { wtype := some (J.str "workspace"), name := nameArg,
              description := (match truthyField result "description" with
                | some v => some v
                | none => descArg),
              parent_graph_id := some (J.str st.primaryGraphId),
              forked_from_parent := some forkParent,
              created_at := .valid 0 }
          let previous := st.activeGraphId
          let st' := { st with workspaces := wSet st.workspaces workspaceId meta,
                               activeGraphId := workspaceId }
          (.pretty (mkObjD
            [("success", some (J.bool true)),
             ("workspace_id", workspaceId),
             ("name", nameArg),
             ("previous_workspace", previous),
             ("active", some (J.bool true)),
             ("forked_from_parent", some forkParent),
             ("message", some (J.str ("Created workspace \"" ++ keyShow nameArg ++
                "\" and switched to it. All operations now use this isolated environment.")))]),
           st'))

/-- The per-entry metadata rebuilt from one server listing entry
(lines 1068-1074): raw fields plus the stored timestamp
`ws.created_at ? new Date(ws.created_at).getTime() : Date.now()` (a falsy
`created_at` stores the valid current time; a truthy one stores its parse,
NaN when unparseable). -/
def metaOfServer (w : J) : WMeta :=
  { wtype := jsGetField w "type", name := jsGetField w "name",
    description := jsGetField w "description",
    parent_graph_id := jsGetField w "parent_graph_id",
    forked_from_parent := none,
    created_at := match truthyField w "created_at" with
      | some v => jsDateParse v
      | none => .valid 0 }

/-- The rebuild loop `for (const ws of result.workspaces) { this.workspaces
.set(ws.workspace_id, {...}) }` (lines 1067-1075), run after `clear()`.  A
`null` element makes `ws.workspace_id` throw `TypeError`, ending the loop:
the returned flag is false and the map keeps only the entries inserted
before the `null` (every later entry is lost).  Non-null primitives do not
throw (their property reads are `undefined`). -/
def rebuildLoop : List J → List (Option J × WMeta) → List (Option J × WMeta) × Bool
  | [], m => (m, true)
  | w :: rest, m =>
      if w == J.null then (m, false)
      else rebuildLoop rest (wSet m (jsGetField w "workspace_id") (metaOfServer w))

/-- One entry of the fallback listing (lines 1110-1118), given the already
serialized `created_at` string. -/
def fallbackEntryPayload (active : Option J) (e : Option J × WMeta) (iso : String) : J :=
  mkObjD
    [("workspace_id", e.1),
     ("type", e.2.wtype),
     ("name", e.2.name),
     ("description", e.2.description),
     ("active", some (J.bool (e.1 == active))),
     ("created_at", some (J.str iso)),
     ("parent_graph_id", e.2.parent_graph_id)]

/-- The fallback listing's `.map` over the local entries (lines 1110-1118):
serialize in order, `new Date(meta.created_at).toISOString()` throwing
`RangeError` at the first NaN timestamp (later entries unevaluated). -/
def fallbackEntries (active : Option J) :
    List (Option J × WMeta) → Except String (List J)
  | [] => .ok []
  | e :: rest =>
      match jsTimeToISO e.2.created_at with
      | .error msg => .error msg
      | .ok iso =>
          match fallbackEntries active rest with
          | .error msg => .error msg
          | .ok tail => .ok (fallbackEntryPayload active e iso :: tail)

/-- The fallback listing served from local tracking (lines 1106-1134),
flagged by its `_note` field.  It runs inside the `catch` block, and its
`toISOString` call can itself throw (`Except.error`): that exception
escapes `_handleListWorkspaces` and the facade. -/
def fallbackListing (st : ClientState) : Except String TText :=
  match fallbackEntries st.activeGraphId st.workspaces with
  | .error msg => .error msg
  | .ok entries =>
      .ok (.pretty (mkObjD
        [("primary_graph_id", some (J.str st.primaryGraphId)),
         ("active_workspace", st.activeGraphId),
         ("total_workspaces", some (J.num st.workspaces.length)),
         ("workspaces", some (J.arr entries)),
         ("_note", some (J.str "Fallback to client-side tracking due to error"))]))

/-- `{...ws, active: ws.workspace_id === this.activeGraphId}` (lines
1088-1091): spread the entry and add/overwrite its `active` flag (an
existing `active` key keeps its position, as a JS object literal does).  For
a primitive entry the spread contributes no fields the client reads (a
string's index properties are dropped; no claim observes this payload).  A
`null` entry cannot reach this map: the rebuild loop over the same array
would have thrown first. -/
def markActive (active : Option J) (w : J) : J :=
  let flag := J.bool (jsGetField w "workspace_id" == active)
  match w with
  | .obj fs =>
      if fs.any (fun p => p.1 == "active") then
        J.obj (fs.map (fun p => if p.1 == "active" then ("active", flag) else p))
      else J.obj (fs ++ [("active", flag)])
  | _ => J.obj [("active", flag)]

/-- `_handleListWorkspaces()` (lines 1018-1135), as (returned text or thrown
message, state after the call): JavaScript mutations persist even when the
call throws, so the state is carried on both channels.  On an error-free
response whose `workspaces` field is an array, the map is cleared and
rebuilt in order — a `null` element ends the rebuild with `TypeError`,
keeping only the earlier entries, and the `catch` then serves the fallback
listing of that mutated state (the active pointer untouched, since
reconciliation sits after the loop).  A truthy non-array field throws after
`clear()` (`for...of` on a non-iterable; a string iterates its characters
and then throws at `.map`, after active-pointer reconciliation); a
falsy/absent field throws only at `.map` (line 1088), leaving the state
unchanged; a `null` decoded `result` throws already at `result.error`.  In
every `catch` path the fallback listing may itself throw `RangeError` on a
stored NaN timestamp; that exception escapes the handler. -/
def handleListWorkspaces (st : ClientState) (remote : RemoteResult) :
    Except String TText × ClientState :=
  match remote with
  | .fail _ => (fallbackListing st, st)
  | .ok result =>
      if result == J.null then (fallbackListing st, st)
      else if (truthyField result "error").isSome then (.ok (.pretty result), st)
      else
        match jsGetField result "workspaces" with
        | some (J.arr ws) =>
            let rb := rebuildLoop ws []
            if rb.2 then
              let active' := if wHas rb.1 st.activeGraphId then st.activeGraphId
                else some (J.str st.primaryGraphId)
              let st' := { st with workspaces := rb.1, activeGraphId := active' }
              (.ok (.pretty (mkObjD
                [("primary_graph_id", jsGetField result "primary_graph_id"),
                 ("active_workspace", active'),
                 ("total_workspaces", some (J.num ws.length)),
                 ("workspaces", some (J.arr (ws.map (markActive active'))))])), st')
            else
              let st' := { st with workspaces := rb.1 }
              (fallbackListing st', st')
        | some (J.str s) =>
            if s == "" then (fallbackListing st, st)
            else
              let wmap := s.data.foldl
                (fun m c => wSet m (jsGetField (J.str (String.mk [c])) "workspace_id")
                  (metaOfServer (J.str (String.mk [c])))) []
              let active' := if wHas wmap st.activeGraphId then st.activeGraphId
                else some (J.str st.primaryGraphId)
              let st' := { st with workspaces := wmap, activeGraphId := active' }
              (fallbackListing st', st')
        | some v =>
            if jsTruthy v then
              let st' := { st with workspaces := [] }
              (fallbackListing st', st')
            else (fallbackListing st, st)
        | none => (fallbackListing st, st)

/-- The four workspace-management tool names `callTool` intercepts
(lines 337-349). -/
inductive WsTool : Type where
  | create : WsTool
  | switch : WsTool
  | del : WsTool
  | list : WsTool
  deriving DecidableEq

/-- The workspace-management branch of `callTool(name, args)` (lines
334-349): the four tool names dispatch to their handlers before cache and
retry are consulted.  Only the create handler can throw (`Except.error`),
from its pre-`try` validation. -/
def callToolWorkspace (st : ClientState) (t : WsTool) (args : J)
    (remote : RemoteResult) : Except String (TText × ClientState) :=
  match t with
  | .create => handleCreateWorkspace st args remote
  | .switch => .ok (handleSwitchWorkspace st args)
  | .del => .ok (handleDeleteWorkspace st args remote)
  | .list =>
      match handleListWorkspaces st remote with
      | (.ok t, st') => .ok (t, st')
      | (.error e, _) => .error e

/-- One workspace operation of a session trace, with the remote's behaviour
for the operations that round-trip. -/
inductive WsOp : Type where
  | createOp (args : J) (remote : RemoteResult) : WsOp
  | switchOp (args : J) : WsOp
  | deleteOp (args : J) (remote : RemoteResult) : WsOp
  | listOp (remote : RemoteResult) : WsOp
  deriving DecidableEq

/-- The state after one workspace operation.  A create whose validation
throws mutates nothing (the throw precedes every mutation); a list whose
call throws keeps whatever mutations preceded the throw (the list handler
returns that state on both channels). -/
def stepWs (st : ClientState) : WsOp → ClientState
  | .createOp args remote =>
      match handleCreateWorkspace st args remote with
      | .ok (_, st') => st'
      | .error _ => st
  | .switchOp args => (handleSwitchWorkspace st args).2
  | .deleteOp args remote => (handleDeleteWorkspace st args remote).2
  | .listOp remote => (handleListWorkspaces st remote).2

/-- A whole session trace of workspace operations. -/
def runWs (st : ClientState) (ops : List WsOp) : ClientState :=
  ops.foldl stepWs st

/-- Well-formedness of one chunk event: its truthy `data.data` field, when
present, is an array (the shape the server streams; a truthy non-array would
make the source's spread throw, see `chunkRows`). -/
def chunkDataOk (c : SEvent) : Bool :=
  match truthyField c.data "data" with
  | some (.arr _) => true
  | some _ => false
  | none => true

/-- The remote-behaviour discipline under which the primary id `G` survives a
workspace operation: a successful error-free delete never targets `G`, and a
successful error-free listing's `workspaces` field, when truthy, is an array
whose prefix before any `null` element carries an entry with `workspace_id`
`G` (a `null` element ends the rebuild with `TypeError` after the map was
cleared, so only that prefix is rebuilt).  A listing whose decoded `result`
is `null` mutates nothing and needs no condition, so the error-free case
here is restricted to non-`null` results.  Create and switch need no
condition (they never remove ids). -/
def opKeepsPrimary (G : String) : WsOp → Prop
  | .deleteOp args (.ok r) =>
      r = J.null ∨ (truthyField r "error").isSome = true ∨
        jsGetField args "workspace_id" ≠ some (J.str G)
  | .deleteOp _ (.fail _) => True
  | .listOp (.ok r) =>
      r = J.null ∨ (truthyField r "error").isSome = true ∨
        match jsGetField r "workspaces" with
        | some (J.arr ws) =>
            ∃ w ∈ ws.takeWhile (fun x => x != J.null),
              jsGetField w "workspace_id" = some (J.str G)
        | some v => jsTruthy v = false
        | none => True
  | .listOp (.fail _) => True
  | .createOp _ _ => True
  | .switchOp _ => True

/-! ## Helper lemmas -/

theorem str_data_append (s t : String) : (s ++ t).data = s.data ++ t.data := by
  cases s; cases t; rfl

theorem listStarts_append_of : ∀ (xs ys zs : List Char),
    listStarts xs ys = true → listStarts (xs ++ zs) ys = true
  | xs, [], zs, _ => by cases xs ++ zs <;> simp [listStarts]
  | [], _ :: _, _, h => by simp [listStarts] at h
  | a :: as, b :: bs, zs, h => by
      simp only [listStarts, Bool.and_eq_true] at h
      simp only [List.cons_append, listStarts, Bool.and_eq_true]
      exact ⟨h.1, listStarts_append_of as bs zs h.2⟩

theorem listHas_of_starts (s pat : List Char) (h : listStarts s pat = true) :
    listHas s pat = true := by
  unfold listHas
  simp [h]

theorem strIncludes_errAfterText (m : Option String) :
    strIncludes (errAfterText 3 m) "Error after 3 attempts" = true := by
  have he : errAfterText 3 m = "Error after 3 attempts: " ++
      (match m with
       | some m' => if m' = "" then "Unknown error" else m'
       | none => "Unknown error") := rfl
  rw [he, strIncludes, str_data_append]
  exact listHas_of_starts _ _ (listStarts_append_of _ _ _ (by decide))

theorem retryGo_attempt_ok {α : Type} (op : Nat → Except String α) (maxR r a : Nat)
    (last : Option String) (v : α) (h : op a = .ok v) :
    retryGo op maxR (r + 1) a last = (1, .result v) := by
  simp [retryGo, h]

theorem retryGo_attempt_auth {α : Type} (op : Nat → Except String α) (maxR r a : Nat)
    (last : Option String) (e : String) (h : op a = .error e)
    (ha : isNonRetryable e = true) :
    retryGo op maxR (r + 1) a last = (1, .errorText (errAfterText maxR (some e))) := by
  simp [retryGo, h, ha]

theorem retryGo_attempt_step {α : Type} (op : Nat → Except String α) (maxR r a : Nat)
    (last : Option String) (e : String) (h : op a = .error e)
    (ha : isNonRetryable e = false) :
    retryGo op maxR (r + 1) a last =
      ((retryGo op maxR r (a + 1) (some e)).1 + 1,
       (retryGo op maxR r (a + 1) (some e)).2) := by
  simp [retryGo, h, ha]

theorem map_eq_of_zip {α β : Type} (f : α → β) :
    ∀ (xs ys : List α), xs.length = ys.length →
      (∀ p ∈ xs.zip ys, f p.1 = f p.2) → xs.map f = ys.map f
  | [], [], _, _ => rfl
  | [], _ :: _, hlen, _ => by simp at hlen
  | _ :: _, [], hlen, _ => by simp at hlen
  | x :: xs, y :: ys, hlen, h => by
      simp only [List.map_cons, List.cons.injEq]
      refine ⟨h (x, y) (by simp [List.zip_cons_cons]), ?_⟩
      exact map_eq_of_zip f xs ys (by simpa using hlen)
        (fun p hp => h p (by simp [List.zip_cons_cons, hp]))

theorem charsLe_total : ∀ as bs : List Char, charsLe as bs = true ∨ charsLe bs as = true
  | [], _ => Or.inl rfl
  | _ :: _, [] => Or.inr rfl
  | a :: as, b :: bs => by
      simp only [charsLe]
      rcases lt_trichotomy a b with h | h | h
      · simp [h, not_lt.mpr h.le, h.ne']
      · subst h
        simp only [lt_irrefl, if_false]
        exact charsLe_total as bs
      · simp [h, not_lt.mpr h.le, h.ne']

theorem charsLe_trans : ∀ as bs cs : List Char,
    charsLe as bs = true → charsLe bs cs = true → charsLe as cs = true
  | [], _, _, _, _ => rfl
  | _ :: _, [], _, h1, _ => by simp [charsLe] at h1
  | _ :: _, _ :: _, [], _, h2 => by simp [charsLe] at h2
  | a :: as, b :: bs, c :: cs, h1, h2 => by
      simp only [charsLe] at h1 h2 ⊢
      rcases lt_trichotomy a b with hab | hab | hab
      · rcases lt_trichotomy b c with hbc | hbc | hbc
        · simp [lt_trans hab hbc]
        · subst hbc; simp [hab]
        · rw [if_neg (lt_asymm hbc), if_pos hbc] at h2
          simp at h2
      · subst hab
        rw [if_neg (lt_irrefl a)] at h1
        rw [if_neg (lt_irrefl a)] at h1
        rcases lt_trichotomy a c with hac | hac | hac
        · simp [hac]
        · subst hac
          rw [if_neg (lt_irrefl a)] at h2 ⊢
          rw [if_neg (lt_irrefl a)] at h2 ⊢
          exact charsLe_trans as bs cs h1 h2
        · rw [if_neg (lt_asymm hac), if_pos hac] at h2
          simp at h2
      · rw [if_neg (lt_asymm hab), if_pos hab] at h1
        simp at h1

theorem charsLe_antisymm : ∀ as bs : List Char,
    charsLe as bs = true → charsLe bs as = true → as = bs
  | [], [], _, _ => rfl
  | [], _ :: _, _, h2 => by simp [charsLe] at h2
  | _ :: _, [], h1, _ => by simp [charsLe] at h1
  | a :: as, b :: bs, h1, h2 => by
      simp only [charsLe] at h1 h2
      rcases lt_trichotomy a b with hab | hab | hab
      · rw [if_neg (lt_asymm hab), if_pos hab] at h2
        simp at h2
      · subst hab
        rw [if_neg (lt_irrefl a)] at h1 h2
        rw [if_neg (lt_irrefl a)] at h1 h2
        rw [charsLe_antisymm as bs h1 h2]
      · rw [if_neg (lt_asymm hab), if_pos hab] at h1
        simp at h1

theorem strLe_antisymm {s t : String} (h1 : strLe s t = true) (h2 : strLe t s = true) :
    s = t := by
  cases s with
  | mk ds =>
    cases t with
    | mk dt => exact congrArg String.mk (charsLe_antisymm ds dt h1 h2)

instance : IsTotal (String × J) fieldLe :=
  ⟨fun p q => charsLe_total p.1.data q.1.data⟩

instance : IsTrans (String × J) fieldLe :=
  ⟨fun _ _ _ h1 h2 => charsLe_trans _ _ _ h1 h2⟩

instance : IsAntisymm (String × J) fieldLt :=
  ⟨fun _ _ h1 h2 => absurd (strLe_antisymm h1.1 h2.1) h1.2⟩

theorem sorted_strict_of_sorted_nodup {l : List (String × J)}
    (hs : l.Sorted fieldLe) (hnd : (l.map Prod.fst).Nodup) : l.Sorted fieldLt := by
  have hne : l.Pairwise (fun p q : String × J => p.1 ≠ q.1) := by
    rw [List.Nodup, List.pairwise_map] at hnd
    exact hnd
  have hp : l.Pairwise fieldLe := hs
  exact (hp.and hne).imp (fun h => ⟨h.1, h.2⟩)

theorem isort_eq_of_perm {l1 l2 : List (String × J)} (hp : l1.Perm l2)
    (hnd : (l1.map Prod.fst).Nodup) :
    List.insertionSort fieldLe l1 = List.insertionSort fieldLe l2 := by
  have hnd2 : (l2.map Prod.fst).Nodup := ((hp.map Prod.fst).nodup_iff).mp hnd
  have hperm : List.Perm (List.insertionSort fieldLe l1) (List.insertionSort fieldLe l2) :=
    ((List.perm_insertionSort fieldLe l1).trans hp).trans
      (List.perm_insertionSort fieldLe l2).symm
  refine List.eq_of_perm_of_sorted (r := fieldLt) hperm ?_ ?_
  · refine sorted_strict_of_sorted_nodup (List.sorted_insertionSort fieldLe l1) ?_
    exact (((List.perm_insertionSort fieldLe l1).map Prod.fst).nodup_iff).mpr hnd
  · refine sorted_strict_of_sorted_nodup (List.sorted_insertionSort fieldLe l2) ?_
    exact (((List.perm_insertionSort fieldLe l2).map Prod.fst).nodup_iff).mpr hnd2

theorem sortKeysList_eq_map : ∀ xs : List J, sortKeysList xs = xs.map sortObjectKeys
  | [] => rfl
  | x :: xs => by simp [sortKeysList, sortKeysList_eq_map xs]

theorem sortKeysFields_eq_map : ∀ fs : List (String × J),
    sortKeysFields fs = fs.map (fun p => (p.1, sortObjectKeys p.2))
  | [] => rfl
  | (k, v) :: fs => by simp [sortKeysFields, sortKeysFields_eq_map fs]

/-- Canonicalization is invariant under key reordering: structurally equal
values (up to key insertion order inside mappings) have identical canonical
forms. -/
theorem sortObjectKeys_eq_of_equiv {a b : J} (h : JEquiv a b) :
    sortObjectKeys a = sortObjectKeys b := by
  induction h with
  | nullE => rfl
  | boolE b => rfl
  | numE n => rfl
  | strE s => rfl
  | arrE xs ys hlen h ih =>
      simp only [sortObjectKeys, sortKeysList_eq_map, J.arr.injEq]
      exact map_eq_of_zip sortObjectKeys xs ys hlen ih
  | objE fs mid gs hlen hkeys hvals hperm hnd ih =>
      simp only [sortObjectKeys, sortKeysFields_eq_map, J.obj.injEq]
      have hmapeq : fs.map (fun p => (p.1, sortObjectKeys p.2)) =
          mid.map (fun p => (p.1, sortObjectKeys p.2)) := by
        refine map_eq_of_zip _ fs mid hlen (fun pq hpq => ?_)
        have h1 := hkeys pq hpq
        have h2 := ih pq hpq
        simp [h1, h2]
      have hmperm : List.Perm (mid.map (fun p => (p.1, sortObjectKeys p.2)))
          (gs.map (fun p => (p.1, sortObjectKeys p.2))) := hperm.map _
      have hnd' : ((fs.map (fun p => (p.1, sortObjectKeys p.2))).map Prod.fst).Nodup := by
        rw [List.map_map]
        exact hnd
      rw [hmapeq]
      refine isort_eq_of_perm hmperm ?_
      rw [← hmapeq]
      exact hnd'

/-! ## Claim theorems -/

/-- C2 (the claim fails on the code): at the default capacity 5, six
acquisitions of distinct ids within the same millisecond leave six pooled
entries.  `evictOldest` initializes its scan minimum to `Date.now()` and
evicts only an entry whose `lastUsed` is *strictly* older, so when every
entry was last used in the current millisecond nothing is evicted
(`findOldest = none`), yet `getConnection` inserts the new entry anyway. -/
theorem c2_pool_exceeds_capacity_same_millisecond :
    (SSEPool.make 5).maxConnections = 5 ∧
    (SSEPool.run (SSEPool.make 5)
        [.get "c1" 0, .get "c2" 0, .get "c3" 0, .get "c4" 0, .get "c5" 0]).size = 5 ∧
    (SSEPool.run (SSEPool.make 5)
        [.get "c1" 0, .get "c2" 0, .get "c3" 0, .get "c4" 0,
         .get "c5" 0]).findOldest 0 = none ∧
    (SSEPool.run (SSEPool.make 5)
        [.get "c1" 0, .get "c2" 0, .get "c3" 0, .get "c4" 0, .get "c5" 0,
         .get "c6" 0]).size = 6 := by
  decide

/-- C3: for every fallible operation whose every failure message signals 401,
403 or 400, `executeWithRetry` invokes the operation exactly once, and when
that single attempt fails the executor returns (never raises) the
user-facing error result wrapping that failure's message. -/
theorem c3_auth_failure_invoked_once {α : Type} (op : Nat → Except String α)
    (hAuth : ∀ i e, op i = .error e → isNonRetryable e = true) :
    (executeWithRetry op).1 = 1 ∧
      ∀ e, op 0 = .error e →
        (executeWithRetry op).2 = .errorText (errAfterText 3 (some e)) := by
  cases h0 : op 0 with
  | ok v =>
      have hE : executeWithRetry op = (1, .result v) :=
        retryGo_attempt_ok op 3 2 0 none v h0
      refine ⟨by rw [hE], fun e he => ?_⟩
      exact Except.noConfusion he
  | error e =>
      have hE : executeWithRetry op = (1, .errorText (errAfterText 3 (some e))) :=
        retryGo_attempt_auth op 3 2 0 none e h0 (hAuth 0 e h0)
      refine ⟨by rw [hE], fun e' he' => ?_⟩
      injection he' with h
      subst h
      rw [hE]

/-- C3 witness: an operation failing every time with "HTTP 401: Unauthorized"
is invoked exactly once and its failure is wrapped in the error result. -/
theorem c3_auth_failure_invoked_once_witness :
    (executeWithRetry (fun _ => (.error "HTTP 401: Unauthorized" : Except String Nat))).1 = 1 ∧
    (executeWithRetry (fun _ => (.error "HTTP 401: Unauthorized" : Except String Nat))).2 =
      .errorText (errAfterText 3 (some "HTTP 401: Unauthorized")) := by
  have h := c3_auth_failure_invoked_once
    (fun _ => (.error "HTTP 401: Unauthorized" : Except String Nat))
    (fun _ e he => by cases he; decide)
  exact ⟨h.1, h.2 _ rfl⟩

/-- C4: an operation failing all 3 attempts with retryable (non-auth) errors
is invoked exactly 3 times and the executor returns (never raises) a result
whose text is "Error after 3 attempts: " followed by the last failure's
message; an operation failing twice retryably and then succeeding is invoked
exactly 3 times and its success value is returned unmodified. -/
theorem c4_retry_exhaustion_and_recovery {α : Type} (op : Nat → Except String α)
    (e0 e1 e2 : String) (v : α)
    (r0 : isNonRetryable e0 = false) (r1 : isNonRetryable e1 = false) :
    ((op 0 = .error e0 → op 1 = .error e1 → op 2 = .error e2 →
      isNonRetryable e2 = false →
      executeWithRetry op = (3, .errorText (errAfterText 3 (some e2))) ∧
      strIncludes (errAfterText 3 (some e2)) "Error after 3 attempts" = true ∧
      (e2 ≠ "" → errAfterText 3 (some e2) = "Error after 3 attempts: " ++ e2)) ∧
     (op 0 = .error e0 → op 1 = .error e1 → op 2 = .ok v →
      executeWithRetry op = (3, .result v))) := by
  constructor
  · intro h0 h1 h2 r2
    refine ⟨?_, strIncludes_errAfterText (some e2), fun hne => ?_⟩
    · show retryGo op 3 (2 + 1) 0 none = _
      rw [retryGo_attempt_step op 3 2 0 none e0 h0 r0]
      rw [show (2 : Nat) = 1 + 1 from rfl,
          retryGo_attempt_step op 3 1 1 (some e0) e1 h1 r1]
      rw [show (1 : Nat) = 0 + 1 from rfl,
          retryGo_attempt_step op 3 0 2 (some e1) e2 h2 r2]
      simp [retryGo]
    · have hrep : errAfterText 3 (some e2) =
          "Error after 3 attempts: " ++ (if e2 = "" then "Unknown error" else e2) := rfl
      rw [hrep, if_neg hne]
  · intro h0 h1 h2
    show retryGo op 3 (2 + 1) 0 none = _
    rw [retryGo_attempt_step op 3 2 0 none e0 h0 r0]
    rw [show (2 : Nat) = 1 + 1 from rfl,
        retryGo_attempt_step op 3 1 1 (some e0) e1 h1 r1]
    rw [show (1 : Nat) = 0 + 1 from rfl,
        retryGo_attempt_ok op 3 0 2 (some e1) v h2]

/-- C4 witness: three "HTTP 500" failures give the 3-attempt error text, and
fail-fail-succeed gives the success value after exactly 3 invocations. -/
theorem c4_retry_exhaustion_and_recovery_witness :
    executeWithRetry (fun _ => (.error "HTTP 500: boom" : Except String Nat)) =
      (3, .errorText "Error after 3 attempts: HTTP 500: boom") ∧
    executeWithRetry (fun i => if i < 2 then (.error "HTTP 500: boom" : Except String Nat)
        else .ok 7) = (3, .result 7) := by
  constructor
  · have h := ((c4_retry_exhaustion_and_recovery
        (fun _ => (.error "HTTP 500: boom" : Except String Nat))
        "HTTP 500: boom" "HTTP 500: boom" "HTTP 500: boom" 0
        (by decide) (by decide)).1 rfl rfl rfl (by decide))
    rw [h.1, h.2.2 (by decide)]
    rfl
  · exact (c4_retry_exhaustion_and_recovery
        (fun i => if i < 2 then (.error "HTTP 500: boom" : Except String Nat) else .ok 7)
        "HTTP 500: boom" "HTTP 500: boom" "" 7
        (by decide) (by decide)).2 rfl rfl rfl

/-- C10: whenever `executeWithRetry` stops early at attempt `k` because the
failure message signals 401/403/400 (every earlier attempt having failed
retryably), the returned text still reads "Error after 3 attempts: <message>"
with the configured maximum, although only `k + 1 ≤ 3` invocations were
made. -/
theorem c10_early_stop_text_claims_three_attempts {α : Type}
    (op : Nat → Except String α) (k : Nat) (e : String) (hk : k < 3)
    (hke : op k = .error e) (hka : isNonRetryable e = true)
    (hprev : ∀ i, i < k → ∃ ei, op i = .error ei ∧ isNonRetryable ei = false) :
    (executeWithRetry op).1 = k + 1 ∧
    (executeWithRetry op).2 = .errorText (errAfterText 3 (some e)) ∧
    strIncludes (errAfterText 3 (some e)) "Error after 3 attempts" = true := by
  refine ?_
  interval_cases k
  · have hE : executeWithRetry op = (1, .errorText (errAfterText 3 (some e))) :=
      retryGo_attempt_auth op 3 2 0 none e hke hka
    exact ⟨by rw [hE], by rw [hE], strIncludes_errAfterText (some e)⟩
  · obtain ⟨e0, h0, r0⟩ := hprev 0 (by omega)
    have hE : executeWithRetry op =
        ((retryGo op 3 2 1 (some e0)).1 + 1, (retryGo op 3 2 1 (some e0)).2) :=
      retryGo_attempt_step op 3 2 0 none e0 h0 r0
    have h2 : retryGo op 3 (1 + 1) 1 (some e0) =
        (1, .errorText (errAfterText 3 (some e))) :=
      retryGo_attempt_auth op 3 1 1 (some e0) e hke hka
    rw [show (2 : Nat) = 1 + 1 from rfl] at hE
    rw [h2] at hE
    exact ⟨by rw [hE], by rw [hE], strIncludes_errAfterText (some e)⟩
  · obtain ⟨e0, h0, r0⟩ := hprev 0 (by omega)
    obtain ⟨e1, h1, r1⟩ := hprev 1 (by omega)
    have hE : executeWithRetry op =
        ((retryGo op 3 2 1 (some e0)).1 + 1, (retryGo op 3 2 1 (some e0)).2) :=
      retryGo_attempt_step op 3 2 0 none e0 h0 r0
    have hE2 : retryGo op 3 (1 + 1) 1 (some e0) =
        ((retryGo op 3 1 2 (some e1)).1 + 1, (retryGo op 3 1 2 (some e1)).2) :=
      retryGo_attempt_step op 3 1 1 (some e0) e1 h1 r1
    have hE3 : retryGo op 3 (0 + 1) 2 (some e1) =
        (1, .errorText (errAfterText 3 (some e))) :=
      retryGo_attempt_auth op 3 0 2 (some e1) e hke hka
    rw [show (2 : Nat) = 1 + 1 from rfl] at hE
    rw [hE2] at hE
    rw [show (1 : Nat) = 0 + 1 from rfl] at hE
    rw [hE3] at hE
    exact ⟨by rw [hE], by rw [hE], strIncludes_errAfterText (some e)⟩

/-- C10 witness: one retryable "HTTP 500" failure then an "HTTP 403" failure
stops after 2 invocations with a text still claiming 3 attempts. -/
theorem c10_early_stop_text_claims_three_attempts_witness :
    (executeWithRetry (fun i => if i = 0 then (.error "HTTP 500: boom" : Except String Nat)
        else .error "HTTP 403: Forbidden")).1 = 2 ∧
    (executeWithRetry (fun i => if i = 0 then (.error "HTTP 500: boom" : Except String Nat)
        else .error "HTTP 403: Forbidden")).2 =
      .errorText "Error after 3 attempts: HTTP 403: Forbidden" := by
  have h := c10_early_stop_text_claims_three_attempts
    (fun i => if i = 0 then (.error "HTTP 500: boom" : Except String Nat)
      else .error "HTTP 403: Forbidden")
    1 "HTTP 403: Forbidden" (by omega) rfl (by decide)
    (fun i hi => ⟨"HTTP 500: boom", by interval_cases i; exact rfl, by decide⟩)
  exact ⟨h.1, by rw [h.2.1]; rfl⟩

/-- C6: an event sequence containing an error-kind event (name "error" or
"operation_error") aggregates to the text "Error: " followed by that (first
such) event's message, whatever other events are present.
`events.find? isErrorEvent = some e` holds exactly when such an event is
present, `e` being the first one in arrival order. -/
theorem c6_error_event_aggregation (events : List SEvent) (e : SEvent)
    (hfind : events.find? isErrorEvent = some e) :
    isErrorEvent e = true ∧
    aggregateStreamedResults events = .plain ("Error: " ++ errMsgOf e.data) := by
  refine ⟨List.find?_some hfind, ?_⟩
  unfold aggregateStreamedResults
  rw [hfind]

/-- C6 witness: `[data{value:1}, error{message:"X"}]` aggregates to
"Error: X" despite the other event. -/
theorem c6_error_event_aggregation_witness :
    aggregateStreamedResults
      [⟨"data", J.obj [("value", J.num 1)]⟩,
       ⟨"error", J.obj [("message", J.str "X")]⟩] = .plain "Error: X" := by
  have h := c6_error_event_aggregation
    [⟨"data", J.obj [("value", J.num 1)]⟩, ⟨"error", J.obj [("message", J.str "X")]⟩]
    ⟨"error", J.obj [("message", J.str "X")]⟩ (by decide)
  rw [h.2]
  decide

/-- C7: with no error event and no firing query-result strategy, a nonempty
set of well-formed chunk events (names "query_chunk"/"data_chunk") merges so
that the first chunk carrying a (truthy) column list establishes `columns`,
every chunk's row list is concatenated in arrival order into `data`, and the
emitted payload is `{columns, data, row_count = |data|}` — emitted only when
a row or a column list was present, else aggregation falls through to the
later strategies (`aggTail`). -/
theorem c7_chunk_merge (events : List SEvent)
    (hNoErr : events.find? isErrorEvent = none)
    (hNoQR : queryResultStrat events = none)
    (hChunks : events.filter isChunkEvent ≠ [])
    (hWF : (events.filter isChunkEvent).all chunkDataOk = true) :
    ((allChunkRows (events.filter isChunkEvent) ≠ [] ∨
        (chunkColumns (events.filter isChunkEvent)).isSome = true) →
      aggregateStreamedResults events = .pretty (J.obj
        [("columns", (chunkColumns (events.filter isChunkEvent)).getD (J.arr [])),
         ("data", J.arr (allChunkRows (events.filter isChunkEvent))),
         ("row_count", J.num (allChunkRows (events.filter isChunkEvent)).length)])) ∧
    ((allChunkRows (events.filter isChunkEvent) = [] ∧
        chunkColumns (events.filter isChunkEvent) = none) →
      aggregateStreamedResults events = aggTail events) := by
  have hbase : aggregateStreamedResults events =
      (match chunkStrat events with
       | some t => t
       | none => aggTail events) := by
    unfold aggregateStreamedResults
    rw [hNoErr, hNoQR]
  have hne : (List.filter isChunkEvent events).isEmpty = false := by
    cases h : List.filter isChunkEvent events with
    | nil => exact absurd h hChunks
    | cons a l => rfl
  constructor
  · intro hemit
    have hcond : (decide ((allChunkRows (List.filter isChunkEvent events)).length > 0) ||
        (chunkColumns (List.filter isChunkEvent events)).isSome) = true := by
      rcases hemit with h | h
      · have hp : (allChunkRows (List.filter isChunkEvent events)).length > 0 :=
          List.length_pos.mpr h
        simp [hp]
      · simp [h]
    have hstrat : chunkStrat events = some (.pretty (J.obj
        [("columns", (chunkColumns (events.filter isChunkEvent)).getD (J.arr [])),
         ("data", J.arr (allChunkRows (events.filter isChunkEvent))),
         ("row_count", J.num (allChunkRows (events.filter isChunkEvent)).length)])) := by
      unfold chunkStrat
      simp only [hne, Bool.false_eq_true, if_false, hcond, if_true]
    rw [hbase, hstrat]
  · intro ⟨hrows, hcols⟩
    have hstrat : chunkStrat events = none := by
      unfold chunkStrat
      simp [hne, hrows, hcols]
    rw [hbase, hstrat]

/-- C7 witness: the spec's example
`[chunk{columns:[c1,c2], data:[[1,2]]}, chunk{data:[[3,4]]}]` merges to
`{columns:[c1,c2], data:[[1,2],[3,4]], row_count:2}`. -/
theorem c7_chunk_merge_witness :
    aggregateStreamedResults
      [⟨"query_chunk", J.obj [("columns", J.arr [J.str "c1", J.str "c2"]),
          ("data", J.arr [J.arr [J.num 1, J.num 2]])]⟩,
       ⟨"query_chunk", J.obj [("data", J.arr [J.arr [J.num 3, J.num 4]])]⟩] =
    .pretty (J.obj
      [("columns", J.arr [J.str "c1", J.str "c2"]),
       ("data", J.arr [J.arr [J.num 1, J.num 2], J.arr [J.num 3, J.num 4]]),
       ("row_count", J.num 2)]) := by
  have h := (c7_chunk_merge
    [⟨"query_chunk", J.obj [("columns", J.arr [J.str "c1", J.str "c2"]),
        ("data", J.arr [J.arr [J.num 1, J.num 2]])]⟩,
     ⟨"query_chunk", J.obj [("data", J.arr [J.arr [J.num 3, J.num 4]])]⟩]
    (by decide) (by decide) (by decide) (by decide)).1 (by decide)
  rw [h]
  decide

/-- C5: cache keys are canonical in the arguments — structurally equal
argument mappings differing only in (possibly nested) key insertion order
produce equal keys; array canonicalization is elementwise in order (so
sequence order stays significant, witnessed by a concrete reordered pair);
and two distinct active-context ids always produce distinct keys. -/
theorem c5_generateKey_canonicalization :
    (∀ (T : String) (A B : J) (C : Option String),
        JEquiv A B → generateKey T A C = generateKey T B C) ∧
    (∀ xs : List J, sortObjectKeys (J.arr xs) = J.arr (xs.map sortObjectKeys)) ∧
    generateKey "t" (J.arr [J.num 1, J.num 2]) (some "w") ≠
      generateKey "t" (J.arr [J.num 2, J.num 1]) (some "w") ∧
    (∀ (T : String) (A : J) (C1 C2 : Option String),
        C1 ≠ C2 → generateKey T A C1 ≠ generateKey T A C2) := by
  refine ⟨?_, ?_, ?_, ?_⟩
  · intro T A B C h
    unfold generateKey
    rw [sortObjectKeys_eq_of_equiv h]
  · intro xs
    simp [sortObjectKeys, sortKeysList_eq_map]
  · decide
  · intro T A C1 C2 hne h
    exact hne (congrArg CacheKeyPayload.workspace h)

/-- C5 witness: a nested pair of mappings differing only in key order hash to
the same key, and the same call under two distinct context ids hashes to two
distinct keys. -/
theorem c5_generateKey_canonicalization_witness :
    generateKey "tool-1" (J.obj [("a", J.num 1), ("b", J.num 2)]) (some "w") =
      generateKey "tool-1" (J.obj [("b", J.num 2), ("a", J.num 1)]) (some "w") ∧
    ((some "w1" : Option String) ≠ some "w2") ∧
    generateKey "tool-1" (J.obj [("a", J.num 1)]) (some "w1") ≠
      generateKey "tool-1" (J.obj [("a", J.num 1)]) (some "w2") := by
  refine ⟨?_, by decide, ?_⟩
  · refine c5_generateKey_canonicalization.1 "tool-1" _ _ (some "w") ?_
    refine JEquiv.objE [("a", J.num 1), ("b", J.num 2)] [("a", J.num 1), ("b", J.num 2)]
      [("b", J.num 2), ("a", J.num 1)] rfl (by decide) ?_ (List.Perm.swap _ _ _) (by decide)
    intro pq hpq
    cases hpq with
    | head => exact JEquiv.numE 1
    | tail _ h2 =>
        cases h2 with
        | head => exact JEquiv.numE 2
        | tail _ h3 => cases h3
  · exact c5_generateKey_canonicalization.2.2.2 "tool-1" (J.obj [("a", J.num 1)])
      (some "w1") (some "w2") (by decide)

/-- C8: after resolving the "primary" alias, switching to a workspace id `W`
that is not in the known set returns (with no remote round-trip — the switch
handler takes no remote input at all) a failure payload whose `error` field
is "Unknown workspace" and whose `available_workspaces` lists the known ids,
leaving the whole state (active pointer and workspace set) unchanged; and
switching to the currently active id (valid, per the active-pointer
invariant) succeeds as a no-op with an informational message. -/
theorem c8_switch_unknown_and_noop (st : ClientState) (W : String) :
    (wHas st.workspaces (some (J.str (if W = "primary" then st.primaryGraphId else W))) =
        false →
      (handleSwitchWorkspace st (J.obj [("workspace_id", J.str W)])).2 = st ∧
      ∃ p, (handleSwitchWorkspace st (J.obj [("workspace_id", J.str W)])).1 = .pretty p ∧
        jsGetField p "error" = some (J.str "Unknown workspace") ∧
        jsGetField p "available_workspaces" =
          some (J.arr ((wKeys st.workspaces).map keyToJ))) ∧
    (wHas st.workspaces (some (J.str (if W = "primary" then st.primaryGraphId else W))) =
        true →
      st.activeGraphId = some (J.str (if W = "primary" then st.primaryGraphId else W)) →
      (handleSwitchWorkspace st (J.obj [("workspace_id", J.str W)])).2 = st ∧
      ∃ p, (handleSwitchWorkspace st (J.obj [("workspace_id", J.str W)])).1 = .pretty p ∧
        jsGetField p "success" = some (J.bool true) ∧
        jsGetField p "message" = some (J.str ("Already in workspace \"" ++
          (if W = "primary" then st.primaryGraphId else W) ++ "\""))) := by
  have hws : jsGetField (J.obj [("workspace_id", J.str W)]) "workspace_id" =
      some (J.str W) := rfl
  generalize hR : (if W = "primary" then st.primaryGraphId else W) = R
  have htarget : (if (some (J.str W) == some (J.str "primary")) = true then
      some (J.str st.primaryGraphId) else some (J.str W)) = some (J.str R) := by
    by_cases hW : W = "primary"
    · rw [if_pos hW] at hR
      subst hW
      simp [hR]
    · rw [if_neg hW] at hR
      subst hR
      simp [hW]
  constructor
  · intro hU
    unfold handleSwitchWorkspace
    simp only [hws, htarget]
    split
    · exact ⟨rfl, _, rfl, rfl, rfl⟩
    · next h =>
        have hw := not_not.mp h
        rw [hU] at hw
        exact Bool.noConfusion hw
  · intro hHas hAct
    unfold handleSwitchWorkspace
    simp only [hws, htarget]
    split
    · next h => exact absurd hHas h
    · split
      · exact ⟨rfl, _, rfl, rfl, rfl⟩
      · next h2 =>
          refine absurd ?_ h2
          rw [hAct]
          simp

/-- C8 witness: in a fresh client with primary "g0", switching to "unknown"
fails with "Unknown workspace" and mutates nothing, and switching to "g0"
(the active id) is a successful no-op. -/
theorem c8_switch_unknown_and_noop_witness :
    ((handleSwitchWorkspace (initClient "g0") (J.obj [("workspace_id", J.str "unknown")])).2 =
        initClient "g0" ∧
      ∃ p, (handleSwitchWorkspace (initClient "g0")
          (J.obj [("workspace_id", J.str "unknown")])).1 = .pretty p ∧
        jsGetField p "error" = some (J.str "Unknown workspace") ∧
        jsGetField p "available_workspaces" =
          some (J.arr ((wKeys (initClient "g0").workspaces).map keyToJ))) ∧
    ((handleSwitchWorkspace (initClient "g0") (J.obj [("workspace_id", J.str "g0")])).2 =
        initClient "g0" ∧
      ∃ p, (handleSwitchWorkspace (initClient "g0")
          (J.obj [("workspace_id", J.str "g0")])).1 = .pretty p ∧
        jsGetField p "success" = some (J.bool true) ∧
        jsGetField p "message" = some (J.str "Already in workspace \"g0\"")) := by
  constructor
  · exact (c8_switch_unknown_and_noop (initClient "g0") "unknown").1 (by decide)
  · have h := (c8_switch_unknown_and_noop (initClient "g0") "g0").2 (by decide) (by decide)
    exact h

/-- C9 counterexample: `callTool` for `create-workspace` with the subgraph
kind "quantum" (outside {static, memory}) raises the validation error out of
the facade instead of returning a `{type:'text'}` result — the throw at
source lines 753-757 sits before the handler's `try`. -/
theorem c9_create_invalid_kind_throws :
    callToolWorkspace (initClient "g0") .create
      (J.obj [("name", J.str "w"), ("subgraph_type", J.str "quantum")])
      (.ok (J.obj [("workspace_id", J.str "sub1")])) =
    .error "Invalid subgraph_type \"quantum\". Must be one of: static, memory" := rfl

theorem wHas_append_single (m : List (Option J × WMeta)) (k : Option J) (v : WMeta) :
    wHas (m ++ [(k, v)]) k = true := by
  simp [wHas, List.any_append]

theorem wHas_wSet_self (m : List (Option J × WMeta)) (k : Option J) (v : WMeta) :
    wHas (wSet m k v) k = true := by
  unfold wSet
  split
  · next h =>
      rw [wHas, List.any_eq_true] at h ⊢
      obtain ⟨x, hx, hxk⟩ := h
      exact ⟨(k, v), List.mem_map.mpr ⟨x, hx, by simp [hxk]⟩, by simp⟩
  · exact wHas_append_single m k v

theorem wHas_wSet_mono (m : List (Option J × WMeta)) (k : Option J) (v : WMeta)
    (k' : Option J) (h : wHas m k' = true) : wHas (wSet m k v) k' = true := by
  unfold wSet
  split
  · rw [wHas, List.any_eq_true] at h ⊢
    obtain ⟨x, hx, hxk⟩ := h
    by_cases hxkey : (x.1 == k) = true
    · refine ⟨(k, v), List.mem_map.mpr ⟨x, hx, by simp [hxkey]⟩, ?_⟩
      have h1 : x.1 = k := by simpa using hxkey
      have h2 : x.1 = k' := by simpa using hxk
      simp [← h1, h2]
    · exact ⟨x, List.mem_map.mpr ⟨x, hx, by simp [hxkey]⟩, hxk⟩
  · rw [wHas, List.any_append]
    rw [wHas] at h
    simp [h]

theorem wHas_wDel_ne (m : List (Option J × WMeta)) (k k' : Option J)
    (h : wHas m k' = true) (hne : k' ≠ k) : wHas (wDel m k) k' = true := by
  rw [wHas, List.any_eq_true] at h ⊢
  obtain ⟨x, hx, hxk⟩ := h
  have hx1 : x.1 = k' := by simpa using hxk
  refine ⟨x, List.mem_filter.mpr ⟨hx, ?_⟩, hxk⟩
  simp [hx1, hne]

theorem switch_preserves_workspaces (st : ClientState) (args : J) :
    (handleSwitchWorkspace st args).2.workspaces = st.workspaces := by
  simp only [handleSwitchWorkspace]
  repeat' split
  all_goals rfl

theorem foldl_wSet_mono (f : J → Option J) (g : J → WMeta) (k : Option J) :
    ∀ (ws : List J) (m0 : List (Option J × WMeta)), wHas m0 k = true →
      wHas (ws.foldl (fun m w => wSet m (f w) (g w)) m0) k = true
  | [], _, h => h
  | w :: ws, m0, h =>
      foldl_wSet_mono f g k ws (wSet m0 (f w) (g w)) (wHas_wSet_mono m0 (f w) (g w) k h)

theorem foldl_wSet_of_mem (f : J → Option J) (g : J → WMeta) (k : Option J) :
    ∀ (ws : List J) (m0 : List (Option J × WMeta)),
      (∃ w ∈ ws, f w = k) →
      wHas (ws.foldl (fun m w => wSet m (f w) (g w)) m0) k = true
  | [], _, ⟨w, hw, _⟩ => absurd hw (List.not_mem_nil w)
  | w :: ws, m0, ⟨w', hw', hfk⟩ => by
      rcases List.mem_cons.mp hw' with rfl | hmem
      · exact foldl_wSet_mono f g k ws _ (hfk ▸ wHas_wSet_self m0 (f w') (g w'))
      · exact foldl_wSet_of_mem f g k ws _ ⟨w', hmem, hfk⟩

theorem mem_wSet (m : List (Option J × WMeta)) (k : Option J) (v : WMeta)
    (e : Option J × WMeta) (h : e ∈ wSet m k v) : e ∈ m ∨ e = (k, v) := by
  unfold wSet at h
  split at h
  · obtain ⟨x, hx, hfx⟩ := List.mem_map.mp h
    by_cases hxk : (x.1 == k) = true
    · rw [if_pos hxk] at hfx
      exact Or.inr hfx.symm
    · rw [if_neg hxk] at hfx
      exact Or.inl (hfx ▸ hx)
  · rcases List.mem_append.mp h with h1 | h2
    · exact Or.inl h1
    · exact Or.inr (List.mem_singleton.mp h2)

theorem foldl_wSet_entries {α : Type} (f : α → Option J) (g : α → WMeta) :
    ∀ (ws : List α) (m0 : List (Option J × WMeta)) (e : Option J × WMeta),
      e ∈ ws.foldl (fun m w => wSet m (f w) (g w)) m0 →
      e ∈ m0 ∨ ∃ w ∈ ws, e.2 = g w
  | [], _, _, he => Or.inl he
  | w :: ws, m0, e, he => by
      rcases foldl_wSet_entries f g ws _ e he with hm | ⟨w', hw', hmeta⟩
      · rcases mem_wSet _ _ _ _ hm with h1 | h2
        · exact Or.inl h1
        · exact Or.inr ⟨w, List.mem_cons_self w ws, by rw [h2]⟩
      · exact Or.inr ⟨w', List.mem_cons_of_mem w hw', hmeta⟩

theorem rebuildLoop_mono (k : Option J) :
    ∀ (ws : List J) (m0 : List (Option J × WMeta)), wHas m0 k = true →
      wHas (rebuildLoop ws m0).1 k = true
  | [], _, h => h
  | w :: rest, m0, h => by
      unfold rebuildLoop
      split
      · exact h
      · exact rebuildLoop_mono k rest _ (wHas_wSet_mono m0 _ _ k h)

theorem rebuildLoop_of_mem (k : Option J) :
    ∀ (ws : List J) (m0 : List (Option J × WMeta)),
      (∃ w ∈ ws.takeWhile (fun x => x != J.null), jsGetField w "workspace_id" = k) →
      wHas (rebuildLoop ws m0).1 k = true
  | [], _, ⟨w, hw, _⟩ => absurd hw (List.not_mem_nil w)
  | w :: rest, m0, ⟨w', hw', hfk⟩ => by
      unfold rebuildLoop
      by_cases hnull : (w == J.null) = true
      · rw [List.takeWhile_cons] at hw'
        rw [show (w != J.null) = false by simp [bne, hnull]] at hw'
        exact absurd hw' (List.not_mem_nil w')
      · rw [if_neg hnull]
        rw [List.takeWhile_cons] at hw'
        rw [show (w != J.null) = true by simp [bne, hnull]] at hw'
        simp only [if_true] at hw'
        rcases List.mem_cons.mp hw' with rfl | hmem
        · exact rebuildLoop_mono k rest _ (hfk ▸ wHas_wSet_self m0 _ _)
        · exact rebuildLoop_of_mem k rest _ ⟨w', hmem, hfk⟩

theorem rebuildLoop_entries :
    ∀ (ws : List J) (m0 : List (Option J × WMeta)) (e : Option J × WMeta),
      e ∈ (rebuildLoop ws m0).1 → e ∈ m0 ∨ ∃ w ∈ ws, e.2 = metaOfServer w
  | [], _, _, he => Or.inl he
  | w :: rest, m0, e, he => by
      unfold rebuildLoop at he
      by_cases hnull : (w == J.null) = true
      · rw [if_pos hnull] at he
        exact Or.inl he
      · rw [if_neg hnull] at he
        rcases rebuildLoop_entries rest _ e he with hm | ⟨w', hw', hmeta⟩
        · rcases mem_wSet _ _ _ _ hm with h1 | h2
          · exact Or.inl h1
          · exact Or.inr ⟨w, List.mem_cons_self w rest, by rw [h2]⟩
        · exact Or.inr ⟨w', List.mem_cons_of_mem w hw', hmeta⟩

theorem metaOfServer_str_created (s : String) :
    (metaOfServer (J.str s)).created_at = JsTime.valid 0 := rfl

theorem fallbackEntries_ok (active : Option J) :
    ∀ (l : List (Option J × WMeta)), (∀ e ∈ l, e.2.created_at ≠ JsTime.nan) →
      ∃ out, fallbackEntries active l = .ok out
  | [], _ => ⟨[], rfl⟩
  | e :: rest, h => by
      obtain ⟨out, hout⟩ :=
        fallbackEntries_ok active rest (fun x hx => h x (List.mem_cons_of_mem e hx))
      cases hct : e.2.created_at with
      | nan => exact absurd hct (h e (List.mem_cons_self e rest))
      | valid ms =>
          refine ⟨fallbackEntryPayload active e (toString ms) :: out, ?_⟩
          unfold fallbackEntries
          rw [hct, hout]
          rfl

theorem fallbackListing_ok (st : ClientState)
    (h : ∀ e ∈ st.workspaces, e.2.created_at ≠ JsTime.nan) :
    ∃ t, fallbackListing st = .ok t := by
  obtain ⟨out, hout⟩ := fallbackEntries_ok st.activeGraphId st.workspaces h
  exact ⟨_, by unfold fallbackListing; rw [hout]⟩

theorem list_ok_of_valid_times (st : ClientState) (remote : RemoteResult)
    (h1 : ∀ e ∈ st.workspaces, e.2.created_at ≠ JsTime.nan)
    (h2 : ∀ r ws, remote = .ok r → jsGetField r "workspaces" = some (J.arr ws) →
      ∀ w ∈ ws, (metaOfServer w).created_at ≠ JsTime.nan) :
    ∃ t, (handleListWorkspaces st remote).1 = .ok t := by
  cases remote with
  | fail msg =>
      obtain ⟨t, ht⟩ := fallbackListing_ok st h1
      exact ⟨t, by simp only [handleListWorkspaces]; exact ht⟩
  | ok result =>
      by_cases hnull : (result == J.null) = true
      · obtain ⟨t, ht⟩ := fallbackListing_ok st h1
        exact ⟨t, by
          simp only [handleListWorkspaces]
          rw [if_pos hnull]
          exact ht⟩
      · by_cases herr : (truthyField result "error").isSome = true
        · exact ⟨.pretty result, by
            simp only [handleListWorkspaces]
            rw [if_neg hnull, if_pos herr]⟩
        · cases hwf : jsGetField result "workspaces" with
          | none =>
              obtain ⟨t, ht⟩ := fallbackListing_ok st h1
              exact ⟨t, by
                simp only [handleListWorkspaces]
                rw [if_neg hnull, if_neg herr]
                simp only [hwf]
                exact ht⟩
          | some v =>
              cases v with
              | arr ws =>
                  have hmetas := h2 result ws rfl hwf
                  by_cases hrb : (rebuildLoop ws []).2 = true
                  · exact ⟨_, by
                      simp only [handleListWorkspaces]
                      rw [if_neg hnull, if_neg herr]
                      simp only [hwf]
                      rw [if_pos hrb]⟩
                  · have hval : ∀ e ∈ (rebuildLoop ws []).1,
                        e.2.created_at ≠ JsTime.nan := by
                      intro e he
                      rcases rebuildLoop_entries ws [] e he with h0 | ⟨w, hw, hm⟩
                      · exact absurd h0 (List.not_mem_nil e)
                      · rw [hm]; exact hmetas w hw
                    obtain ⟨t, ht⟩ := fallbackListing_ok
                      { st with workspaces := (rebuildLoop ws []).1 } hval
                    exact ⟨t, by
                      simp only [handleListWorkspaces]
                      rw [if_neg hnull, if_neg herr]
                      simp only [hwf]
                      rw [if_neg hrb]
                      exact ht⟩
              | str s =>
                  by_cases hs : (s == "") = true
                  · obtain ⟨t, ht⟩ := fallbackListing_ok st h1
                    exact ⟨t, by
                      simp only [handleListWorkspaces]
                      rw [if_neg hnull, if_neg herr]
                      simp only [hwf]
                      rw [if_pos hs]
                      exact ht⟩
                  · have hval : ∀ e ∈ (s.data.foldl
                        (fun m c => wSet m
                          (jsGetField (J.str (String.mk [c])) "workspace_id")
                          (metaOfServer (J.str (String.mk [c])))) []),
                        e.2.created_at ≠ JsTime.nan := by
                      intro e he
                      rcases foldl_wSet_entries _ _ s.data [] e he with h0 | ⟨c, _, hm⟩
                      · exact absurd h0 (List.not_mem_nil e)
                      · rw [hm, metaOfServer_str_created]
                        exact fun hc => JsTime.noConfusion hc
                    obtain ⟨t, ht⟩ := fallbackListing_ok
                      { st with
                        workspaces := s.data.foldl
                          (fun m c => wSet m
                            (jsGetField (J.str (String.mk [c])) "workspace_id")
                            (metaOfServer (J.str (String.mk [c])))) [],
                        activeGraphId := if wHas (s.data.foldl
                            (fun m c => wSet m
                              (jsGetField (J.str (String.mk [c])) "workspace_id")
                              (metaOfServer (J.str (String.mk [c])))) [])
                            st.activeGraphId then st.activeGraphId
                          else some (J.str st.primaryGraphId) } hval
                    exact ⟨t, by
                      simp only [handleListWorkspaces]
                      rw [if_neg hnull, if_neg herr]
                      simp only [hwf]
                      rw [if_neg hs]
                      exact ht⟩
              | null =>
                  obtain ⟨t, ht⟩ := fallbackListing_ok st h1
                  exact ⟨t, by
                    simp only [handleListWorkspaces]
                    rw [if_neg hnull, if_neg herr]
                    simp only [hwf]
                    exact ht⟩
              | bool b =>
                  cases b with
                  | false =>
                      obtain ⟨t, ht⟩ := fallbackListing_ok st h1
                      exact ⟨t, by
                        simp only [handleListWorkspaces]
                        rw [if_neg hnull, if_neg herr]
                        simp only [hwf]
                        exact ht⟩
                  | true =>
                      obtain ⟨t, ht⟩ := fallbackListing_ok { st with workspaces := [] }
                        (fun e he => absurd he (List.not_mem_nil e))
                      exact ⟨t, by
                        simp only [handleListWorkspaces]
                        rw [if_neg hnull, if_neg herr]
                        simp only [hwf]
                        exact ht⟩
              | num n =>
                  by_cases hn : jsTruthy (J.num n) = true
                  · obtain ⟨t, ht⟩ := fallbackListing_ok { st with workspaces := [] }
                      (fun e he => absurd he (List.not_mem_nil e))
                    exact ⟨t, by
                      simp only [handleListWorkspaces]
                      rw [if_neg hnull, if_neg herr]
                      simp only [hwf]
                      rw [if_pos hn]
                      exact ht⟩
                  · obtain ⟨t, ht⟩ := fallbackListing_ok st h1
                    exact ⟨t, by
                      simp only [handleListWorkspaces]
                      rw [if_neg hnull, if_neg herr]
                      simp only [hwf]
                      rw [if_neg hn]
                      exact ht⟩
              | obj fs =>
                  obtain ⟨t, ht⟩ := fallbackListing_ok { st with workspaces := [] }
                    (fun e he => absurd he (List.not_mem_nil e))
                  exact ⟨t, by
                    simp only [handleListWorkspaces]
                    rw [if_neg hnull, if_neg herr]
                    simp only [hwf]
                    exact ht⟩

theorem create_preserves_membership (st : ClientState) (args : J)
    (remote : RemoteResult) (r : TText) (st' : ClientState) (k : Option J)
    (h : handleCreateWorkspace st args remote = .ok (r, st'))
    (hk : wHas st.workspaces k = true) : wHas st'.workspaces k = true := by
  cases remote with
  | fail msg =>
      simp only [handleCreateWorkspace] at h
      split at h
      · exact Except.noConfusion h
      · injection h with h
        injection h with h1 h2
        rw [← h2]
        exact hk
  | ok result =>
      simp only [handleCreateWorkspace] at h
      split at h
      · exact Except.noConfusion h
      · injection h with h
        split at h
        · injection h with h1 h2
          rw [← h2]
          exact hk
        · split at h
          · injection h with h1 h2
            rw [← h2]
            exact hk
          · injection h with h1 h2
            rw [← h2]
            exact wHas_wSet_mono _ _ _ _ hk

theorem stepWs_keeps_primary (G : String) (st : ClientState) (op : WsOp)
    (hG : wHas st.workspaces (some (J.str G)) = true) (hop : opKeepsPrimary G op) :
    wHas (stepWs st op).workspaces (some (J.str G)) = true := by
  cases op with
  | switchOp args =>
      show wHas (handleSwitchWorkspace st args).2.workspaces _ = true
      rw [switch_preserves_workspaces]
      exact hG
  | createOp args remote =>
      show wHas (match handleCreateWorkspace st args remote with
        | .ok (_, st') => st'
        | .error _ => st).workspaces _ = true
      cases hres : handleCreateWorkspace st args remote with
      | error msg => exact hG
      | ok p => exact create_preserves_membership st args remote p.1 p.2 _ hres hG
  | deleteOp args remote =>
      show wHas (handleDeleteWorkspace st args remote).2.workspaces _ = true
      cases remote with
      | fail msg => exact hG
      | ok result =>
          simp only [handleDeleteWorkspace]
          split
          · exact hG
          · next hnull =>
              split
              · exact hG
              · next herr =>
                  rcases hop with hopNull | hopErr | hopNe
                  · exact absurd (by simp [hopNull]) hnull
                  · exact absurd hopErr herr
                  · exact wHas_wDel_ne _ _ _ hG (Ne.symm hopNe)
  | listOp remote =>
      show wHas (handleListWorkspaces st remote).2.workspaces _ = true
      cases remote with
      | fail msg => exact hG
      | ok result =>
          simp only [handleListWorkspaces]
          split
          · exact hG
          · next hnull =>
              split
              · exact hG
              · next herr =>
                  rcases hop with hopNull | hopErr | hopList
                  · exact absurd (by simp [hopNull]) hnull
                  · exact absurd hopErr herr
                  · cases hwf : jsGetField result "workspaces" with
                    | none => simp only [hwf]; exact hG
                    | some v =>
                        rw [hwf] at hopList
                        cases v with
                        | arr ws =>
                            simp only [hwf]
                            have hmem :=
                              rebuildLoop_of_mem (some (J.str G)) ws [] hopList
                            split
                            · exact hmem
                            · exact hmem
                        | str s =>
                            have hs : s = "" := by simpa [jsTruthy] using hopList
                            subst hs
                            simp only [hwf]
                            exact hG
                        | null =>
                            simp only [hwf]
                            exact hG
                        | bool b =>
                            have hb : b = false := by simpa [jsTruthy] using hopList
                            subst hb
                            simp only [hwf]
                            exact hG
                        | num n =>
                            have hn : n = 0 := by simpa [jsTruthy] using hopList
                            subst hn
                            simp only [hwf]
                            exact hG
                        | obj fs =>
                            simp [jsTruthy] at hopList

/-- The list-workspaces exception path is reachable: a server listing entry
whose `created_at` does not parse stores a NaN timestamp locally
(`new Date(...).getTime()`, line 1073), and a later list-workspaces call
that falls back to local tracking (here: the remote fails) throws
`RangeError: Invalid time value` from `toISOString` (line 1116) out of the
facade instead of returning a text result. -/
theorem list_fallback_raises_on_invalid_timestamp :
    (metaOfServer (J.obj [("workspace_id", J.str "w1"),
        ("created_at", J.str "not-a-date")])).created_at = JsTime.nan ∧
    (handleListWorkspaces
        { primaryGraphId := "g0", activeGraphId := some (J.str "g0"),
          workspaces := [(some (J.str "w1"),
            metaOfServer (J.obj [("workspace_id", J.str "w1"),
              ("created_at", J.str "not-a-date")]))] }
        (.fail "network down")).1 = .error "Invalid time value" :=
  ⟨rfl, rfl⟩

/-- C9 (amended): every workspace-management `callTool` dispatch returns a
structured `{type:'text'}` result without raising, provided (a) a
create-workspace call's subgraph kind (defaulted to "static") lies in
{static, memory} — outside that set the validation error escapes the facade
(see the counterexample) — and (b) a list-workspaces call meets no NaN
`created_at` timestamp: every locally stored entry's timestamp is valid and
every entry of an error-free remote listing array parses to a valid
timestamp.  Without (b) the fallback listing's `toISOString` throws
`RangeError` out of the facade (see
`list_fallback_raises_on_invalid_timestamp` above for reachability). -/
theorem c9_workspace_calls_return_text (st : ClientState) (t : WsTool) (args : J)
    (remote : RemoteResult)
    (hkind : t = .create →
      ((jsGetField args "subgraph_type").getD (J.str "static") == J.str "static" ||
       (jsGetField args "subgraph_type").getD (J.str "static") == J.str "memory") = true)
    (htime : t = .list →
      (∀ e ∈ st.workspaces, e.2.created_at ≠ JsTime.nan) ∧
      (∀ r ws, remote = .ok r → jsGetField r "workspaces" = some (J.arr ws) →
        ∀ w ∈ ws, (metaOfServer w).created_at ≠ JsTime.nan)) :
    ∃ r st', callToolWorkspace st t args remote = .ok (r, st') := by
  cases t with
  | create =>
      have hk := hkind rfl
      unfold callToolWorkspace handleCreateWorkspace
      simp only [hk]
      rw [if_neg (by simp)]
      exact ⟨_, _, rfl⟩
  | switch => exact ⟨_, _, rfl⟩
  | del => exact ⟨_, _, rfl⟩
  | list =>
      obtain ⟨hval, hremote⟩ := htime rfl
      obtain ⟨t0, ht0⟩ := list_ok_of_valid_times st remote hval hremote
      cases hl : handleListWorkspaces st remote with
      | mk r2 st2 =>
          rw [hl] at ht0
          refine ⟨t0, st2, ?_⟩
          show (match handleListWorkspaces st remote with
            | (.ok tt, st') => Except.ok (tt, st')
            | (.error e, _) => Except.error e) = Except.ok (t0, st2)
          rw [hl]
          have hr : r2 = .ok t0 := ht0
          rw [hr]

/-- C9 witness: a switch-workspace call on a fresh client with the remote
down still returns a structured text result. -/
theorem c9_workspace_calls_return_text_witness :
    ∃ r st', callToolWorkspace (initClient "g0") .switch (J.obj []) (.fail "down") =
      .ok (r, st') :=
  c9_workspace_calls_return_text (initClient "g0") .switch (J.obj []) (.fail "down")
    (fun h => nomatch h) (fun h => nomatch h)

/-- C1 counterexample: the claim as stated is false — from a fresh client
with primary graph id "g0", a single `deleteWorkspace("g0")` whose remote
round-trip reports an error-free success removes "g0" from the local
workspace set (the delete handler, source lines 966-979, has no client-side
guard for the primary id). -/
theorem c1_primary_deletable_counterexample :
    wHas (runWs (initClient "g0")
        [.deleteOp (J.obj [("workspace_id", J.str "g0")]) (.ok (J.obj []))]).workspaces
      (some (J.str "g0")) = false := by
  decide

/-- C1 (amended): across every sequence of workspace operations, the local
workspace set keeps containing the primary id `G` — provided the remote
service never reports an error-free non-`null` success for deleting `G`
itself and every error-free non-`null` remote listing's truthy `workspaces`
field is an array whose prefix before any `null` element carries an entry
whose `workspace_id` is `G` (the `opKeepsPrimary` discipline; a `null`
listing element ends the rebuild loop with `TypeError` after `clear()`, so
entries after it are lost).  Without that proviso the set can lose `G`
(see the counterexample). -/
theorem c1_amended_primary_preserved (G : String) (st : ClientState) (ops : List WsOp)
    (hG : wHas st.workspaces (some (J.str G)) = true)
    (hops : ∀ op ∈ ops, opKeepsPrimary G op) :
    wHas (runWs st ops).workspaces (some (J.str G)) = true := by
  induction ops generalizing st with
  | nil => exact hG
  | cons op ops ih =>
      exact ih (stepWs st op)
        (stepWs_keeps_primary G st op hG (hops op (List.mem_cons_self op ops)))
        (fun o ho => hops o (List.mem_cons_of_mem op ho))

/-- C1 witness: a fresh client with primary "g0" runs a create, a switch, a
well-behaved delete of another id and a well-behaved listing; "g0" is still
in the local set afterwards. -/
theorem c1_amended_primary_preserved_witness :
    wHas (runWs (initClient "g0")
        [.createOp (J.obj [("name", J.str "w")]) (.ok (J.obj [("workspace_id", J.str "sub1")])),
         .switchOp (J.obj [("workspace_id", J.str "primary")]),
         .deleteOp (J.obj [("workspace_id", J.str "sub1")]) (.ok (J.obj [])),
         .listOp (.ok (J.obj [("workspaces", J.arr [J.obj [("workspace_id", J.str "g0"),
            ("type", J.str "primary")]])]))]).workspaces
      (some (J.str "g0")) = true := by
  refine c1_amended_primary_preserved "g0" (initClient "g0") _ (by decide) ?_
  intro op hop
  fin_cases hop
  · exact trivial
  · exact trivial
  · exact Or.inr (Or.inr (by decide))
  · exact Or.inr (Or.inr
      ⟨J.obj [("workspace_id", J.str "g0"), ("type", J.str "primary")],
        by decide, rfl⟩)
